import Mathlib

/-!
# TOP-GRAB job portal — verification of the specification against the code

Shallow embedding of the API route handlers of the TOP-GRAB job-portal
repository (Next.js + Mongoose).  The document database is modelled as lists
of records; Mongo ObjectIds are naturals; dates are integers (epoch time);
each route handler becomes a pure function from the database state and the
(already JSON-parsed) request to an HTTP status code, an optional response
payload and the new database state.

Modelling conventions, applied uniformly:
* a missing or invalid `auth_token` cookie is `Option.none` for the decoded
  token payload (the two 401 branches of every handler collapse into one);
* a request field that JavaScript would see as `undefined`, `null` or an
  invalid ObjectId string is `Option.none`;
* Mongo `_id` values are assumed unique per collection (`wf` below) — this is
  what `findById` / `findByIdAndUpdate` / `updateOne` rely on — so an
  update-by-id is modelled as a map over the list touching the matching
  record;
* fields of the documents that no claim mentions (cover letters, companies,
  titles, timestamps, …) are elided from the record types.
-/

namespace TopGrab

/-- Mongo ObjectIds, modelled as naturals. -/
abbrev OId := Nat

/-- `status` enum of `lib/models/application.ts` (`ApplicationSchema`). -/
inductive AppStatus
  | Pending | Reviewed | Shortlisted | Interviewed | Selected | Rejected
deriving DecidableEq

/-- `status` enum of `lib/models/job.ts` (`JobSchema`). -/
inductive JobStatus
  | Active | Closed | Draft
deriving DecidableEq

/-- Roles carried in the JWT payload (`lib/auth.ts` / register routes). -/
inductive Role
  | jobSeeker | employer
deriving DecidableEq

/-- Decoded JWT payload, as produced by `verifyToken` in `lib/auth.ts`
(the `username` component is never used by the handlers we model). -/
structure Auth where
  userId : OId
  role : Role
deriving DecidableEq

/-- A document of the `jobs` collection (`lib/models/job.ts`).  The
`deadline` string is modelled already parsed: `none` stands for an absent,
empty or unparseable deadline. -/
structure Job where
  id : OId
  employerId : OId
  status : JobStatus
  deadline : Option Int
  applicants : Int
deriving DecidableEq

/-- A document of the `applications` collection (`lib/models/application.ts`).
The `rating` is a JS number or a stored JSON `null` (`none`): the PATCH
handler can `$set` null and Mongoose update validators do not run. -/
structure Application where
  id : OId
  jobId : OId
  jobSeekerId : OId
  status : AppStatus
  rating : Option Int
deriving DecidableEq

/-- An entry of the `appliedJobs` mirror array embedded in a job-seeker
document (`lib/models/jobseeker.ts`); `jobId` and `applicationId` are
`required` in the schema, so they are not optional here. -/
structure AppliedJob where
  jobId : OId
  applicationId : OId
  status : AppStatus
  rating : Option Int
deriving DecidableEq

/-- A document of the `jobseekers` collection (`lib/models/jobseeker.ts`).
`passwordResetTokenExpiry` defaults to `null` (`none`). -/
structure JobSeeker where
  id : OId
  username : String
  passwordHash : String
  isEmailVerified : Bool
  passwordResetToken : String
  passwordResetTokenExpiry : Option Int
  firstName : String
  lastName : String
  email : String
  appliedJobs : List AppliedJob
deriving DecidableEq

/-- A document of the `employers` collection (`lib/models/employer.ts`). -/
structure Employer where
  id : OId
  username : String
  passwordHash : String
  isEmailVerified : Bool
  passwordResetToken : String
  passwordResetTokenExpiry : Option Int
  email : String
deriving DecidableEq

/-- The whole database state (collections `jobs`, `applications`,
`jobseekers`, `employers`). -/
structure DB where
  jobs : List Job
  applications : List Application
  jobSeekers : List JobSeeker
  employers : List Employer
deriving DecidableEq

/-- Well-formedness of the database: Mongo `_id`s are unique within each
collection. -/
def wf (db : DB) : Prop :=
  (db.jobs.map Job.id).Nodup ∧ (db.applications.map Application.id).Nodup ∧
  (db.jobSeekers.map JobSeeker.id).Nodup ∧ (db.employers.map Employer.id).Nodup

instance (db : DB) : Decidable (wf db) := by unfold wf; infer_instance

/-- `['Pending', …].includes(status)` together with the decoding of the JSON
string into the status enum; `none` for a string outside the enum. -/
def parseStatus : String → Option AppStatus
  | "Pending" => some .Pending
  | "Reviewed" => some .Reviewed
  | "Shortlisted" => some .Shortlisted
  | "Interviewed" => some .Interviewed
  | "Selected" => some .Selected
  | "Rejected" => some .Rejected
  | _ => none

/-- Wire representation of a status value. -/
def statusToString : AppStatus → String
  | .Pending => "Pending"
  | .Reviewed => "Reviewed"
  | .Shortlisted => "Shortlisted"
  | .Interviewed => "Interviewed"
  | .Selected => "Selected"
  | .Rejected => "Rejected"

/-- The deadline test used by the job routes: the job carries a deadline and
it lies strictly before `now` (`now > new Date(job.deadline)` in
`app/api/jobs/employer/route.ts` and `app/api/applications/route.ts`;
`$lt [deadline, now]` in the `updateMany` of `app/api/jobs/route.ts`). -/
def deadlinePassed (deadline : Option Int) (now : Int) : Bool :=
  match deadline with
  | some d => d < now
  | none => false

/-- `isTokenExpired` from `lib/token-utils.ts`: a missing expiry date counts
as expired, otherwise expired iff `now` is strictly past the expiry. -/
def isTokenExpired (expiry : Option Int) (now : Int) : Bool :=
  match expiry with
  | none => true
  | some d => d < now

/-- JavaScript's `String.prototype.toLowerCase()` on the ASCII identifiers
the handlers lowercase (usernames, emails), modelled as per-character case
folding. -/
def lowerStr (s : String) : String := ⟨s.data.map Char.toLower⟩

/-- JavaScript's `String.prototype.trim()`: strip leading and trailing
whitespace. -/
def trimStr (s : String) : String :=
  ⟨((s.data.dropWhile Char.isWhitespace).reverse.dropWhile
      Char.isWhitespace).reverse⟩

/-- JavaScript's `email.includes('@')`. -/
def hasAtSign (s : String) : Bool := s.data.contains '@'

/-- Mongo's positional `$` operator: update the first element of the array
satisfying the filter, leave the rest untouched. -/
def updateFirst (p : α → Bool) (f : α → α) : List α → List α
  | [] => []
  | x :: xs => if p x then f x :: xs else x :: updateFirst p f xs

/-- `Job.findByIdAndUpdate(jid, { status: 'Closed' })`. -/
def closeJob (jid : OId) (jobs : List Job) : List Job :=
  jobs.map (fun j => if j.id = jid then { j with status := JobStatus.Closed } else j)

/-- `Job.findByIdAndUpdate(jid, { $inc: { applicants: d } })`. -/
def incApplicants (jid : OId) (d : Int) (jobs : List Job) : List Job :=
  jobs.map (fun j => if j.id = jid then { j with applicants := j.applicants + d } else j)

/-- Push a mirror entry onto the seeker's `appliedJobs`, skipping the push
when an entry for the same job is already present (the handler refetches the
seeker document and re-checks before pushing). -/
def pushMirror (uid : OId) (entry : AppliedJob) (seekers : List JobSeeker) :
    List JobSeeker :=
  seekers.map (fun s =>
    if s.id = uid then
      if s.appliedJobs.any (fun aj => aj.jobId = entry.jobId) then s
      else { s with appliedJobs := s.appliedJobs ++ [entry] }
    else s)

/-- Validation of the PATCH `status` field:
`status && ['Pending', …].includes(status)` — an absent field, an empty
string or a string outside the enum contributes nothing to the update. -/
def patchStatusOf (reqStatus : Option String) : Option AppStatus :=
  match reqStatus with
  | some s => parseStatus s
  | none => none

/-- The JSON `rating` field of a PATCH body as JavaScript sees it: absent
(`undefined`), `null`, or a number. -/
inductive RatingField
  | undef
  | null
  | num (r : Int)
deriving DecidableEq

/-- Validation of the PATCH `rating` field:
`rating !== undefined && rating >= 0 && rating <= 5`.  A number is accepted
exactly when it lies in `[0, 5]`; an absent field contributes nothing; JSON
`null` also passes the check (in JavaScript `null !== undefined`,
`null >= 0` and `null <= 5` all hold, null coercing to 0 in relational
comparison) and the `$set` then stores null verbatim (Mongoose casts null
through and update validators do not run on `findByIdAndUpdate`). -/
def patchRatingOf : RatingField → Option (Option Int)
  | RatingField.undef => none
  | RatingField.null => some none
  | RatingField.num r => if 0 ≤ r ∧ r ≤ 5 then some (some r) else none

/-- The `$set` update on one application document. -/
def patchAppOne (appId : OId) (newStatus : Option AppStatus)
    (newRating : Option (Option Int)) (ap : Application) : Application :=
  if ap.id = appId then
    { ap with status := newStatus.getD ap.status,
              rating := newRating.getD ap.rating }
  else ap

/-- `Application.findByIdAndUpdate(appId, { $set: updateFields })` where the
update carries the (already validated) optional new status and rating. -/
def setAppFields (appId : OId) (newStatus : Option AppStatus)
    (newRating : Option (Option Int)) (apps : List Application) : List Application :=
  apps.map (patchAppOne appId newStatus newRating)

/-- The `$set` on one mirror entry of `appliedJobs`. -/
def patchMirrorEntry (newStatus : Option AppStatus) (newRating : Option (Option Int))
    (aj : AppliedJob) : AppliedJob :=
  { aj with status := newStatus.getD aj.status,
            rating := newRating.getD aj.rating }

/-- The mirror `$set` on one seeker document: when it is the owner and has a
matching entry, the first matching entry is updated. -/
def patchSeekerOne (uid appId : OId) (newStatus : Option AppStatus)
    (newRating : Option (Option Int)) (s : JobSeeker) : JobSeeker :=
  if s.id = uid ∧ s.appliedJobs.any (fun aj => aj.applicationId = appId) then
    { s with
      appliedJobs :=
        updateFirst (fun aj => aj.applicationId = appId)
          (patchMirrorEntry newStatus newRating) s.appliedJobs }
  else s

/-- The mirror half of the PATCH:
`JobSeeker.updateOne({_id: uid, 'appliedJobs.applicationId': appId},
{$set: {'appliedJobs.$.status': …, 'appliedJobs.$.rating': …}})` — the first
matching array entry of the matching seeker document is updated. -/
def setMirrorFields (uid appId : OId) (newStatus : Option AppStatus)
    (newRating : Option (Option Int)) (seekers : List JobSeeker) : List JobSeeker :=
  seekers.map (patchSeekerOne uid appId newStatus newRating)

/-- Remove the mirror entries with the given `applicationId` from the
seeker's `appliedJobs` array. -/
def dropMirrorByAppId (uid appId : OId) (seekers : List JobSeeker) :
    List JobSeeker :=
  seekers.map (fun s =>
    if s.id = uid then
      { s with appliedJobs :=
        s.appliedJobs.filter (fun aj => aj.applicationId ≠ appId) }
    else s)

/-- Remove the mirror entries with the given `jobId` from the `appliedJobs`
arrays of every seeker whose id occurs in `uids`. -/
def dropMirrorByJobId (uids : List OId) (jid : OId)
    (seekers : List JobSeeker) : List JobSeeker :=
  seekers.map (fun s =>
    if uids.contains s.id then
      { s with appliedJobs := s.appliedJobs.filter (fun aj => aj.jobId ≠ jid) }
    else s)

/-- `POST /api/applications` (`app/api/applications/route.ts`): a job seeker
applies to a job.  `freshId` is the ObjectId Mongo generates for the new
application document; `now` is the current time.  Returns the HTTP status and
the new database state.  Error paths: 401 missing/invalid token, 403 not a
job seeker, 400 missing/invalid `jobId`, 404 job not found, 400 job not
Active, 400 deadline passed (auto-closing the job), 400 duplicate
application (checked in both the `applications` collection and the seeker's
`appliedJobs` mirror), 404 seeker profile not found, 400 incomplete profile. -/
def applicationsPOST (db : DB) (auth : Option Auth) (jobId : Option OId)
    (freshId : OId) (now : Int) : Nat × DB :=
  match auth with
  | none => (401, db)
  | some a =>
    if a.role ≠ Role.jobSeeker then (403, db)
    else match jobId with
    | none => (400, db)
    | some jid =>
      match db.jobs.find? (fun j => j.id = jid) with
      | none => (404, db)
      | some job =>
        if job.status ≠ JobStatus.Active then (400, db)
        else if deadlinePassed job.deadline now then
          -- Auto-close the job, then reject with 400.
          (400, { db with jobs := closeJob jid db.jobs })
        else if db.applications.any
            (fun ap => ap.jobId = jid && ap.jobSeekerId = a.userId) then
          (400, db)
        else match db.jobSeekers.find? (fun s => s.id = a.userId) with
        | none => (404, db)
        | some seeker =>
          if seeker.firstName = "" ∨ seeker.lastName = "" then (400, db)
          else if seeker.appliedJobs.any (fun aj => aj.jobId = jid) then (400, db)
          else
            let newApp : Application :=
              { id := freshId, jobId := jid, jobSeekerId := a.userId,
                status := AppStatus.Pending, rating := some 0 }
            let entry : AppliedJob :=
              { jobId := jid, applicationId := freshId,
                status := AppStatus.Pending, rating := some 0 }
            (201,
             { db with
                applications := db.applications ++ [newApp],
                jobs := incApplicants jid 1 db.jobs,
                jobSeekers := pushMirror a.userId entry db.jobSeekers })

/-- `PATCH /api/applications/[applicationId]`
(`app/api/applications/[applicationId]/route.ts`): an employer updates an
application's status and/or rating.  `reqStatus` is the raw JSON field
(`none` = absent); `reqRating` is absent, null or a number.  A status
outside the enum or a numeric rating outside `[0, 5]` is silently dropped
from the update; a null rating passes the check and is stored.  The mirror entry in
the seeker's `appliedJobs` is updated through
`updateOne({_id, 'appliedJobs.applicationId'}, {$set: {'appliedJobs.$...'}})`,
i.e. the first matching array entry of the matching seeker document. -/
def applicationPATCH (db : DB) (auth : Option Auth) (applicationId : OId)
    (reqStatus : Option String) (reqRating : RatingField) : Nat × DB :=
  match auth with
  | none => (401, db)
  | some a =>
    if a.role ≠ Role.employer then (403, db)
    else match db.applications.find? (fun ap => ap.id = applicationId) with
    | none => (404, db)
    | some application =>
      match db.jobs.find? (fun j => j.id = application.jobId) with
      | none => (404, db)
      | some job =>
        if job.employerId ≠ a.userId then (403, db)
        else
          let newStatus : Option AppStatus := patchStatusOf reqStatus
          let newRating : Option (Option Int) := patchRatingOf reqRating
          let db1 : DB :=
            { db with
              applications :=
                setAppFields applicationId newStatus newRating db.applications }
          let db2 : DB :=
            if newStatus.isSome ∨ newRating.isSome then
              { db1 with
                jobSeekers :=
                  setMirrorFields application.jobSeekerId applicationId
                    newStatus newRating db1.jobSeekers }
            else db1
          (200, db2)

/-- `DELETE /api/my-applications/[applicationId]`
(`app/api/my-applications/[applicationId]/route.ts`): a job seeker removes
one of their applications.  The mirror entry is filtered out of
`appliedJobs` first (matching on `applicationId`; the jobId fallback of the
handler only fires for entries with a missing `applicationId`, which the
schema forbids), then the application document is deleted and the job's
applicant counter decremented. -/
def myApplicationDELETE (db : DB) (auth : Option Auth)
    (applicationId : Option OId) : Nat × DB :=
  match auth with
  | none => (401, db)
  | some a =>
    if a.role ≠ Role.jobSeeker then (403, db)
    else match applicationId with
    | none => (400, db)
    | some appId =>
      match db.applications.find? (fun ap => ap.id = appId) with
      | none => (404, db)
      | some application =>
        if application.jobSeekerId ≠ a.userId then (403, db)
        else
          (200,
           { db with
              jobSeekers := dropMirrorByAppId a.userId appId db.jobSeekers,
              applications := db.applications.filter (fun ap => ap.id ≠ appId),
              jobs := incApplicants application.jobId (-1) db.jobs })

/-- `DELETE /api/jobs/[jobId]` (`app/api/jobs/[jobId]/route.ts`): the owning
employer deletes a job.  The handler collects the job's applications, strips
every entry for this job from each affected seeker's `appliedJobs`, deletes
the applications with `deleteMany({jobId})` and finally deletes the job. -/
def jobDELETE (db : DB) (auth : Option Auth) (jobId : OId) : Nat × DB :=
  match auth with
  | none => (401, db)
  | some a =>
    if a.role ≠ Role.employer then (403, db)
    else match db.jobs.find? (fun j => j.id = jobId) with
    | none => (404, db)
    | some job =>
      if job.employerId ≠ a.userId then (403, db)
      else
        let seekerIds :=
          (db.applications.filter (fun ap => ap.jobId = jobId)).map
            Application.jobSeekerId
        (200,
         { db with
            jobSeekers := dropMirrorByJobId seekerIds jobId db.jobSeekers,
            applications := db.applications.filter (fun ap => ap.jobId ≠ jobId),
            jobs := db.jobs.filter (fun j => j.id ≠ jobId) })

/-- The `updateMany` of `GET /api/jobs`: close every Active job whose
(parseable, non-empty) deadline lies before `now`. -/
def closeExpired (now : Int) (jobs : List Job) : List Job :=
  jobs.map (fun j =>
    if j.status = JobStatus.Active ∧ deadlinePassed j.deadline now then
      { j with status := JobStatus.Closed }
    else j)

/-- `GET /api/jobs` (`app/api/jobs/route.ts`): the public job list.  First an
`updateMany` closes every Active job whose deadline has passed; then only
the jobs that are still Active are returned.  Result: the list of returned
jobs and the new database state. -/
def jobsGET (db : DB) (now : Int) : List Job × DB :=
  let db1 : DB := { db with jobs := closeExpired now db.jobs }
  (db1.jobs.filter (fun j => j.status = JobStatus.Active), db1)

/-- The per-job status recomputation and write-back of
`GET /api/jobs/employer`, restricted to the given employer's jobs. -/
def closeExpiredOwned (eid : OId) (now : Int) (jobs : List Job) : List Job :=
  jobs.map (fun j =>
    if j.employerId = eid ∧ j.status = JobStatus.Active ∧
        deadlinePassed j.deadline now then
      { j with status := JobStatus.Closed }
    else j)

/-- `GET /api/jobs/employer` (`app/api/jobs/employer/route.ts`): the
authenticated employer's job list.  For each of the employer's jobs the
response status is recomputed — an Active job with a passed deadline is
reported as Closed and the stored document is updated (fire-and-forget).
Result: HTTP status, the `(id, status)` pairs of the response, and the new
database state (the other response fields are elided). -/
def employerJobsGET (db : DB) (auth : Option Auth) (now : Int) :
    Nat × List (OId × JobStatus) × DB :=
  match auth with
  | none => (401, [], db)
  | some a =>
    if a.role ≠ Role.employer then (403, [], db)
    else
      let mine := db.jobs.filter (fun j => j.employerId = a.userId)
      let report := mine.map (fun j =>
        (j.id,
         if j.status = JobStatus.Active ∧ deadlinePassed j.deadline now then
           JobStatus.Closed
         else j.status))
      (200, report, { db with jobs := closeExpiredOwned a.userId now db.jobs })

/-- `GET /api/jobs/[jobId]` (`app/api/jobs/[jobId]/route.ts`): fetch one job.
The handler formats the stored document as-is — it performs no deadline
check and no status update.  Result: HTTP status, the reported job status
(`none` on 404) and the (unchanged) database state. -/
def jobGET (db : DB) (jobId : OId) : Nat × Option JobStatus × DB :=
  match db.jobs.find? (fun j => j.id = jobId) with
  | none => (404, none, db)
  | some job => (200, some job.status, db)

/-- The JSON body of `POST /api/auth/register`.  A field that is absent,
`null` or empty is `""` (all of these are falsy in the handler's checks). -/
structure RegisterReq where
  username : String
  password : String
  firstName : String
  lastName : String
  role : String
  email : String
deriving DecidableEq

/-- `POST /api/auth/register` (`app/api/auth/register/route.ts`).  `freshId`
is the ObjectId of the new user document; `hash` is `hashPassword` from
`lib/auth.ts` (bcrypt, external to the repository).  Result: HTTP status,
the `auth_token` cookie set by the response (always `none`: registration
never logs the user in) and the new database state.  The email-verification
token fields of the created document are elided. -/
def registerPOST (db : DB) (req : RegisterReq) (freshId : OId)
    (hash : String → String) : Nat × Option Auth × DB :=
  if req.username = "" ∨ req.password = "" ∨ req.firstName = "" ∨
      req.lastName = "" ∨ req.role = "" then (400, none, db)
  else if req.password.data.length < 6 then (400, none, db)
  else if req.email = "" ∨ hasAtSign req.email = false then (400, none, db)
  else if req.role ≠ "job-seeker" ∧ req.role ≠ "employer" then (400, none, db)
  else
    let u := lowerStr req.username
    let e := trimStr (lowerStr req.email)
    if db.jobSeekers.any (fun s => s.username = u || s.email = e) ||
        db.employers.any (fun s => s.username = u || s.email = e) then
      (409, none, db)
    else if req.role = "job-seeker" then
      (201, none,
       { db with
         jobSeekers := db.jobSeekers ++
           [{ id := freshId, username := u, passwordHash := hash req.password,
              isEmailVerified := false, passwordResetToken := "",
              passwordResetTokenExpiry := none, firstName := req.firstName,
              lastName := req.lastName, email := e, appliedJobs := [] }] })
    else
      (201, none,
       { db with
         employers := db.employers ++
           [{ id := freshId, username := u, passwordHash := hash req.password,
              isEmailVerified := false, passwordResetToken := "",
              passwordResetTokenExpiry := none, email := e }] })

/-- The JSON body of `POST /api/auth/login`; `role = ""` models an absent
role field. -/
structure LoginReq where
  username : String
  password : String
  role : String
deriving DecidableEq

/-- The user-lookup step of `POST /api/auth/login`
(`app/api/auth/login/route.ts`): with a `role` field only the matching
collection is consulted; without one, job seekers first, then employers. -/
def loginFind (db : DB) (req : LoginReq) : Option (JobSeeker ⊕ Employer) :=
  let u := lowerStr req.username
  if req.role = "job-seeker" then
    (db.jobSeekers.find? (fun s => s.username = u)).map Sum.inl
  else if req.role = "employer" then
    (db.employers.find? (fun s => s.username = u)).map Sum.inr
  else
    match db.jobSeekers.find? (fun s => s.username = u) with
    | some s => some (Sum.inl s)
    | none => (db.employers.find? (fun s => s.username = u)).map Sum.inr

/-- The stored password hash of a user found by `loginFind`/`resetFind`. -/
def userHash : JobSeeker ⊕ Employer → String
  | Sum.inl s => s.passwordHash
  | Sum.inr e => e.passwordHash

/-- The id of a user found by `loginFind`/`resetFind`. -/
def userId : JobSeeker ⊕ Employer → OId
  | Sum.inl s => s.id
  | Sum.inr e => e.id

/-- The role of a user found by `loginFind`/`resetFind`. -/
def userRole : JobSeeker ⊕ Employer → Role
  | Sum.inl _ => Role.jobSeeker
  | Sum.inr _ => Role.employer

/-- The `isEmailVerified` flag of a user found by `loginFind`/`resetFind`. -/
def userVerified : JobSeeker ⊕ Employer → Bool
  | Sum.inl s => s.isEmailVerified
  | Sum.inr e => e.isEmailVerified

/-- The `passwordResetTokenExpiry` of a user found by `resetFind`. -/
def userResetExpiry : JobSeeker ⊕ Employer → Option Int
  | Sum.inl s => s.passwordResetTokenExpiry
  | Sum.inr e => e.passwordResetTokenExpiry

/-- `POST /api/auth/login` (`app/api/auth/login/route.ts`).  `verify` is
`verifyPassword` from `lib/auth.ts` (bcrypt compare, external to the
repository).  Result: HTTP status, the `auth_token` cookie payload set by
the response (`none` = no cookie) and the (unchanged) database state.  The
handler checks the credentials only — it never consults `isEmailVerified`. -/
def loginPOST (db : DB) (req : LoginReq) (verify : String → String → Bool) :
    Nat × Option Auth × DB :=
  if req.username = "" ∨ req.password = "" then (400, none, db)
  else match loginFind db req with
  | none => (401, none, db)
  | some user =>
    if verify req.password (userHash user) then
      (200, some { userId := userId user, role := userRole user }, db)
    else (401, none, db)

/-- The user-lookup step of `POST /api/auth/reset-password`
(`app/api/auth/reset-password/route.ts`): job seekers first, then
employers, matching on `passwordResetToken`. -/
def resetFind (db : DB) (token : String) : Option (JobSeeker ⊕ Employer) :=
  match db.jobSeekers.find? (fun s => s.passwordResetToken = token) with
  | some s => some (Sum.inl s)
  | none => (db.employers.find? (fun e => e.passwordResetToken = token)).map Sum.inr

/-- Store a new password hash and clear the reset-token fields on the given
user (the `user.save()` of the reset handler). -/
def saveNewPassword (user : JobSeeker ⊕ Employer) (h : String) (db : DB) : DB :=
  match user with
  | Sum.inl s =>
    { db with
      jobSeekers := db.jobSeekers.map (fun x =>
        if x.id = s.id then
          { x with passwordHash := h, passwordResetToken := "",
                   passwordResetTokenExpiry := none }
        else x) }
  | Sum.inr e =>
    { db with
      employers := db.employers.map (fun x =>
        if x.id = e.id then
          { x with passwordHash := h, passwordResetToken := "",
                   passwordResetTokenExpiry := none }
        else x) }

/-- `POST /api/auth/reset-password` (`app/api/auth/reset-password/route.ts`).
A valid, unexpired token belonging to a user whose email is not verified is
refused with 403 before any write. -/
def resetPasswordPOST (db : DB) (token newPassword : String) (now : Int)
    (hash : String → String) : Nat × DB :=
  if token = "" ∨ newPassword = "" then (400, db)
  else if newPassword.data.length < 6 then (400, db)
  else match resetFind db token with
  | none => (400, db)
  | some user =>
    if isTokenExpired (userResetExpiry user) now then (400, db)
    else if userVerified user = false then (403, db)
    else (200, saveNewPassword user (hash newPassword) db)

/-! ## Invariants of the dual-write pattern -/

/-- A mirror entry carries the same application fact as the application
document: same `applicationId`, `jobId`, `status` and `rating`. -/
def mirrors (ap : Application) (aj : AppliedJob) : Prop :=
  aj.applicationId = ap.id ∧ aj.jobId = ap.jobId ∧
  aj.status = ap.status ∧ aj.rating = ap.rating

instance (ap : Application) (aj : AppliedJob) : Decidable (mirrors ap aj) := by
  unfold mirrors; infer_instance

/-- The owning seeker document exists and its `appliedJobs` array holds
exactly one entry for this application, and that entry mirrors it. -/
def appMirrored (db : DB) (ap : Application) : Prop :=
  ∃ s ∈ db.jobSeekers, s.id = ap.jobSeekerId ∧
    s.appliedJobs.countP (fun aj => decide (aj.applicationId = ap.id)) = 1 ∧
    ∀ aj ∈ s.appliedJobs, aj.applicationId = ap.id → mirrors ap aj

instance (db : DB) (ap : Application) : Decidable (appMirrored db ap) := by
  unfold appMirrored; infer_instance

/-- Every mirror entry in every seeker's `appliedJobs` is backed by a record
of the `applications` collection carrying the same fact. -/
def entryBacked (db : DB) : Prop :=
  ∀ s ∈ db.jobSeekers, ∀ aj ∈ s.appliedJobs,
    ∃ ap ∈ db.applications,
      ap.id = aj.applicationId ∧ ap.jobSeekerId = s.id ∧ mirrors ap aj

instance (db : DB) : Decidable (entryBacked db) := by
  unfold entryBacked; infer_instance

/-- The dual-write invariant: every application fact is stored in exactly
two places — the shared `applications` collection and the owning seeker's
`appliedJobs` mirror — and the two copies agree. -/
def consistent (db : DB) : Prop :=
  (∀ ap ∈ db.applications, appMirrored db ap) ∧ entryBacked db

instance (db : DB) : Decidable (consistent db) := by
  unfold consistent; infer_instance

/-- At most one application per `(job, job-seeker)` pair. -/
def pairUnique (apps : List Application) : Prop :=
  apps.Pairwise (fun a b => ¬(a.jobId = b.jobId ∧ a.jobSeekerId = b.jobSeekerId))

instance (apps : List Application) : Decidable (pairUnique apps) := by
  unfold pairUnique; infer_instance

/-- A stored rating value is a number lying in `[0, 5]` (a stored JSON
null, modelled as `none`, violates this). -/
def ratingOk : Option Int → Prop
  | some r => 0 ≤ r ∧ r ≤ 5
  | none => False

instance (v : Option Int) : Decidable (ratingOk v) := by
  cases v with
  | none => exact isFalse (fun h => h)
  | some r => exact inferInstanceAs (Decidable (0 ≤ r ∧ r ≤ 5))

/-- Every stored rating lies in `[0, 5]`. -/
def ratingInv (db : DB) : Prop :=
  ∀ ap ∈ db.applications, ratingOk ap.rating

instance (db : DB) : Decidable (ratingInv db) := by
  unfold ratingInv; infer_instance

/-! ## Concrete database states used by the witnesses -/

/-- A job seeker with one application (mirrored), unverified email, and a
live password-reset token. -/
def exSeeker : JobSeeker :=
  { id := 1, username := "alice", passwordHash := "hash-alice",
    isEmailVerified := false, passwordResetToken := "reset-tok",
    passwordResetTokenExpiry := some 100, firstName := "Alice",
    lastName := "Lidell", email := "alice@mail.test",
    appliedJobs :=
      [{ jobId := 20, applicationId := 50,
         status := AppStatus.Pending, rating := some 0 }] }

/-- A job seeker with no applications. -/
def exSeeker2 : JobSeeker :=
  { id := 3, username := "bob", passwordHash := "hash-bob",
    isEmailVerified := true, passwordResetToken := "",
    passwordResetTokenExpiry := none, firstName := "Bob",
    lastName := "Stone", email := "bob@mail.test", appliedJobs := [] }

/-- The employer owning `exJob`. -/
def exEmployer : Employer :=
  { id := 2, username := "acme", passwordHash := "hash-acme",
    isEmailVerified := true, passwordResetToken := "",
    passwordResetTokenExpiry := none, email := "acme@mail.test" }

/-- A second employer owning no jobs. -/
def exEmployer2 : Employer :=
  { id := 4, username := "globex", passwordHash := "hash-globex",
    isEmailVerified := true, passwordResetToken := "",
    passwordResetTokenExpiry := none, email := "globex@mail.test" }

/-- An Active job with a deadline in the future (relative to `now = 5`). -/
def exJob : Job :=
  { id := 20, employerId := 2, status := JobStatus.Active,
    deadline := some 100, applicants := 1 }

/-- An Active job whose deadline (0) already passed at `now = 5`. -/
def exJobExpired : Job :=
  { id := 21, employerId := 2, status := JobStatus.Active,
    deadline := some 0, applicants := 0 }

/-- The application of `exSeeker` to `exJob`. -/
def exApp : Application :=
  { id := 50, jobId := 20, jobSeekerId := 1,
    status := AppStatus.Pending, rating := some 0 }

/-- A small consistent database: two seekers, two employers, one Active job
with one application, and one expired Active job. -/
def exDB : DB :=
  { jobs := [exJob, exJobExpired], applications := [exApp],
    jobSeekers := [exSeeker, exSeeker2], employers := [exEmployer, exEmployer2] }

/-! ## Helper lemmas -/

/-- Decoding inverts encoding of application statuses. -/
theorem parseStatus_statusToString (t : AppStatus) :
    parseStatus (statusToString t) = some t := by
  cases t <;> rfl

/-- `findById` on a collection with unique ids and a member with that id
finds that member. -/
theorem find?_job_id (jobs : List Job) (j : Job)
    (hnd : (jobs.map Job.id).Nodup) (hmem : j ∈ jobs) :
    jobs.find? (fun x => x.id = j.id) = some j := by
  induction jobs with
  | nil => cases hmem
  | cons h t ih =>
    simp only [List.map_cons, List.nodup_cons] at hnd
    rcases List.mem_cons.mp hmem with rfl | hm
    · simp [List.find?_cons]
    · have hne : h.id ≠ j.id := fun he => hnd.1 (he ▸ List.mem_map.mpr ⟨j, hm, rfl⟩)
      rw [List.find?_cons]
      simp only [hne, decide_eq_true_eq, if_neg, decide_False]
      exact ih hnd.2 hm

/-- A list counting exactly one `p`-element splits around it. -/
theorem countP_eq_one_split {α} (p : α → Bool) (l : List α)
    (h : l.countP p = 1) :
    ∃ l₁ x l₂, l = l₁ ++ x :: l₂ ∧ p x = true ∧
      l₁.countP p = 0 ∧ l₂.countP p = 0 := by
  induction l with
  | nil => simp [List.countP_nil] at h
  | cons a t ih =>
    by_cases hpa : p a = true
    · refine ⟨[], a, t, rfl, hpa, by simp, ?_⟩
      have := h
      rw [List.countP_cons, if_pos hpa] at this
      omega
    · have hpa' : p a = false := by
        cases hval : p a
        · rfl
        · exact absurd hval hpa
      rw [List.countP_cons, hpa'] at h
      simp at h
      obtain ⟨l₁, x, l₂, rfl, hx, h1, h2⟩ := ih h
      exact ⟨a :: l₁, x, l₂, rfl, hx, by simp [List.countP_cons, hpa', h1], h2⟩

/-- `updateFirst` passes over a prefix free of `p`-elements. -/
theorem updateFirst_append_of_countP_zero {α} (p : α → Bool) (f : α → α)
    (l₁ l₂ : List α) (h : l₁.countP p = 0) :
    updateFirst p f (l₁ ++ l₂) = l₁ ++ updateFirst p f l₂ := by
  induction l₁ with
  | nil => rfl
  | cons a t ih =>
    rw [List.countP_cons] at h
    have hpa : p a = false := by
      cases hval : p a
      · rfl
      · rw [hval] at h; simp at h
    rw [hpa] at h
    simp only [List.cons_append, updateFirst, hpa]
    simp only [Bool.false_eq_true, if_false, List.cons.injEq, true_and]
    exact ih (by omega)

/-- `updateFirst` fires on a matching head. -/
theorem updateFirst_cons_of_pos {α} (p : α → Bool) (f : α → α) (x : α)
    (l : List α) (hx : p x = true) :
    updateFirst p f (x :: l) = f x :: l := by
  simp [updateFirst, hx]

/-- `updateFirst` leaves `countP q` unchanged when `f` does not change
membership in `q`. -/
theorem countP_updateFirst {α} (p q : α → Bool) (f : α → α) (l : List α)
    (hq : ∀ x, q (f x) = q x) :
    (updateFirst p f l).countP q = l.countP q := by
  induction l with
  | nil => rfl
  | cons a t ih =>
    by_cases hpa : p a = true
    · simp [updateFirst, hpa, List.countP_cons, hq]
    · have hpa' : p a = false := by
        cases hval : p a
        · rfl
        · exact absurd hval hpa
      simp [updateFirst, hpa', List.countP_cons, ih]

/-- Members of `updateFirst p f l` are old members or the image of a
`p`-member. -/
theorem mem_updateFirst {α} (p : α → Bool) (f : α → α) (l : List α) (y : α)
    (hy : y ∈ updateFirst p f l) :
    y ∈ l ∨ ∃ x ∈ l, p x = true ∧ y = f x := by
  induction l with
  | nil => cases hy
  | cons a t ih =>
    by_cases hpa : p a = true
    · rw [updateFirst_cons_of_pos p f a t hpa] at hy
      rcases List.mem_cons.mp hy with rfl | hm
      · exact Or.inr ⟨a, List.mem_cons_self a t, hpa, rfl⟩
      · exact Or.inl (List.mem_cons_of_mem a hm)
    · have hpa' : p a = false := by
        cases hval : p a
        · rfl
        · exact absurd hval hpa
      simp only [updateFirst, hpa'] at hy
      simp only [Bool.false_eq_true, if_false] at hy
      rcases List.mem_cons.mp hy with rfl | hm
      · exact Or.inl (List.mem_cons_self y t)
      · rcases ih hm with h | ⟨x, hx, hpx, rfl⟩
        · exact Or.inl (List.mem_cons_of_mem a h)
        · exact Or.inr ⟨x, List.mem_cons_of_mem a hx, hpx, rfl⟩

/-- Filtering by `r` preserves `countP q` when every `q`-element passes
`r`. -/
theorem countP_filter_of_imp {α} (q r : α → Bool) (l : List α)
    (h : ∀ x ∈ l, q x = true → r x = true) :
    (l.filter r).countP q = l.countP q := by
  induction l with
  | nil => rfl
  | cons a t ih =>
    have iht := ih (fun x hx => h x (List.mem_cons_of_mem a hx))
    by_cases hra : r a = true
    · simp [List.filter_cons, hra, List.countP_cons, iht]
    · have hra' : r a = false := by
        cases hval : r a
        · rfl
        · exact absurd hval hra
      have hqa : q a = false := by
        cases hval : q a
        · rfl
        · exact absurd (h a (List.mem_cons_self a t) hval) hra
      simp [List.filter_cons, hra', List.countP_cons, hqa, iht]

/-- A no-op `$set` (no valid status, no valid rating) leaves the
applications collection unchanged. -/
theorem setAppFields_none_none (appId : OId) (apps : List Application) :
    setAppFields appId none none apps = apps := by
  unfold setAppFields patchAppOne
  rw [List.map_congr_left (fun b _ => ?_), List.map_id]
  split <;> rfl

/-- `setAppFields` preserves in-range ratings when the update's rating
value (if any) is itself in range. -/
theorem ratingInv_setAppFields (appId : OId) (ns : Option AppStatus)
    (nr : Option (Option Int)) (apps : List Application)
    (hinv : ∀ ap ∈ apps, ratingOk ap.rating)
    (hnr : ∀ v, nr = some v → ratingOk v) :
    ∀ ap ∈ setAppFields appId ns nr apps, ratingOk ap.rating := by
  intro ap' h
  unfold setAppFields at h
  obtain ⟨b, hb, rfl⟩ := List.mem_map.mp h
  by_cases hid : b.id = appId
  · simp only [patchAppOne, hid, if_true]
    cases hnr2 : nr with
    | none => simpa using hinv b hb
    | some v => simpa using hnr v hnr2
  · simp only [patchAppOne, hid, if_false]
    exact hinv b hb

/-- Characterization of a successful apply: when every check passes, the
handler returns 201, appends the new Pending application with rating 0,
increments the job's applicant counter and pushes the mirror entry. -/
theorem applicationsPOST_success_eq (db : DB) (uid jid fid : OId) (now : Int)
    (job : Job) (seeker : JobSeeker)
    (hjob : db.jobs.find? (fun j => j.id = jid) = some job)
    (hact : job.status = JobStatus.Active)
    (hdl : deadlinePassed job.deadline now = false)
    (hnodup : db.applications.any
      (fun ap => ap.jobId = jid && ap.jobSeekerId = uid) = false)
    (hseeker : db.jobSeekers.find? (fun s => s.id = uid) = some seeker)
    (hfn : seeker.firstName ≠ "") (hln : seeker.lastName ≠ "")
    (hnomirror : seeker.appliedJobs.any (fun aj => aj.jobId = jid) = false) :
    applicationsPOST db (some { userId := uid, role := Role.jobSeeker })
        (some jid) fid now =
      (201,
       { db with
          applications := db.applications ++
            [{ id := fid, jobId := jid, jobSeekerId := uid,
               status := AppStatus.Pending, rating := some 0 }],
          jobs := incApplicants jid 1 db.jobs,
          jobSeekers := pushMirror uid
            { jobId := jid, applicationId := fid,
              status := AppStatus.Pending, rating := some 0 } db.jobSeekers }) := by
  simp [applicationsPOST, hjob, hact, hdl, hnodup, hseeker, hfn, hln, hnomirror]

/-- Characterization of a successful PATCH: the owning employer gets 200,
the application is `$set` with the validated fields, and — when the update
is nonempty — the first matching mirror entry of the owning seeker is
updated the same way. -/
theorem applicationPATCH_success_eq (db : DB) (eid appId : OId)
    (rs : Option String) (rr : RatingField) (ap : Application) (job : Job)
    (hap : db.applications.find? (fun x => x.id = appId) = some ap)
    (hjob : db.jobs.find? (fun j => j.id = ap.jobId) = some job)
    (hown : job.employerId = eid) :
    applicationPATCH db (some { userId := eid, role := Role.employer })
        appId rs rr =
      (200,
       { db with
          applications :=
            setAppFields appId (patchStatusOf rs) (patchRatingOf rr)
              db.applications,
          jobSeekers :=
            if (patchStatusOf rs).isSome ∨ (patchRatingOf rr).isSome then
              setMirrorFields ap.jobSeekerId appId (patchStatusOf rs)
                (patchRatingOf rr) db.jobSeekers
            else db.jobSeekers }) := by
  simp only [applicationPATCH, hap, hjob]
  simp [hown]
  split <;> simp

/-- Characterization of a successful delete from "My Applications": the
owning seeker gets 200, the mirror entries with this `applicationId` are
dropped, the application document is removed and the job's applicant
counter decremented. -/
theorem myApplicationDELETE_success_eq (db : DB) (uid appId : OId)
    (ap : Application)
    (hap : db.applications.find? (fun x => x.id = appId) = some ap)
    (hown : ap.jobSeekerId = uid) :
    myApplicationDELETE db (some { userId := uid, role := Role.jobSeeker })
        (some appId) =
      (200,
       { db with
          jobSeekers := dropMirrorByAppId uid appId db.jobSeekers,
          applications := db.applications.filter (fun x => x.id ≠ appId),
          jobs := incApplicants ap.jobId (-1) db.jobs }) := by
  simp [myApplicationDELETE, hap, hown]

/-- A rating accepted by the PATCH validation is in range — except for
JSON null, which also passes the JavaScript comparisons. -/
theorem patchRatingOf_bounds (rf : RatingField) (hrf : rf ≠ RatingField.null) :
    ∀ v, patchRatingOf rf = some v → ratingOk v := by
  intro v h
  cases rf with
  | undef => cases h
  | null => exact absurd rfl hrf
  | num r =>
    have h2 : (if 0 ≤ r ∧ r ≤ 5 then some (some r) else none :
        Option (Option Int)) = some v := h
    by_cases hb : 0 ≤ r ∧ r ≤ 5
    · rw [if_pos hb] at h2
      cases h2
      exact hb
    · rw [if_neg hb] at h2
      cases h2

/-- A `$set` carrying no rating leaves every stored rating unchanged. -/
theorem map_rating_setAppFields_none (appId : OId) (ns : Option AppStatus)
    (apps : List Application) :
    (setAppFields appId ns none apps).map Application.rating =
      apps.map Application.rating := by
  unfold setAppFields
  rw [List.map_map]
  apply List.map_congr_left
  intro b _
  show Application.rating (if b.id = appId then _ else b) = b.rating
  split <;> rfl

/-- Every outcome of the apply handler preserves the rating invariant. -/
theorem ratingInv_applicationsPOST (db : DB) (auth : Option Auth)
    (jid : Option OId) (fid : OId) (now : Int) (hinv : ratingInv db) :
    ratingInv (applicationsPOST db auth jid fid now).2 := by
  unfold applicationsPOST
  repeat' first | exact fun ap hap => hinv ap hap | split
  intro ap hap
  rcases List.mem_append.mp hap with h | h
  · exact hinv ap h
  · simp only [List.mem_singleton] at h
    subst h
    exact ⟨le_refl 0, by norm_num⟩

/-- Every outcome of the PATCH handler preserves the rating invariant,
provided the request's rating field is not JSON null. -/
theorem ratingInv_applicationPATCH (db : DB) (auth : Option Auth)
    (appId : OId) (rs : Option String) (rr : RatingField)
    (hrf : rr ≠ RatingField.null) (hinv : ratingInv db) :
    ratingInv (applicationPATCH db auth appId rs rr).2 := by
  unfold applicationPATCH
  repeat' first | exact fun ap hap => hinv ap hap | split
  intro ap hap
  dsimp only at hap
  have hb := patchRatingOf_bounds rr hrf
  split at hap
  · exact ratingInv_setAppFields appId _ _ _ hinv hb ap hap
  · exact ratingInv_setAppFields appId _ _ _ hinv hb ap hap

/-- A `$set` carrying a rating value (a number or null) stores it verbatim
on the matching application. -/
theorem setAppFields_rating_set (appId : OId) (ns : Option AppStatus)
    (v : Option Int) (apps : List Application) :
    ∀ ap' ∈ setAppFields appId ns (some v) apps,
      ap'.id = appId → ap'.rating = v := by
  intro ap' h hid
  unfold setAppFields at h
  obtain ⟨b, hb, rfl⟩ := List.mem_map.mp h
  by_cases hbid : b.id = appId
  · simp [patchAppOne, hbid]
  · simp [patchAppOne, hbid] at hid

/-- A PATCH carrying an out-of-range numeric rating changes no stored
rating, on any path through the handler. -/
theorem map_rating_applicationPATCH_invalid (db : DB) (auth : Option Auth)
    (appId : OId) (rs : Option String) (r : Int) (hr : ¬(0 ≤ r ∧ r ≤ 5)) :
    ((applicationPATCH db auth appId rs
        (RatingField.num r)).2.applications).map
        Application.rating = db.applications.map Application.rating := by
  have hnone : patchRatingOf (RatingField.num r) = none :=
    (if_neg hr : (if 0 ≤ r ∧ r ≤ 5 then some (some r) else none :
      Option (Option Int)) = none)
  unfold applicationPATCH
  repeat' first | rfl | split
  dsimp only
  simp only [hnone]
  split <;> exact map_rating_setAppFields_none _ _ _

/-- The applications collection after an apply: unchanged on every reject
path, extended by the fresh Pending application — after the duplicate check
passed — on the 201 path. -/
theorem applicationsPOST_apps_cases (db : DB) (auth : Option Auth)
    (jid : Option OId) (fid : OId) (now : Int) :
    (applicationsPOST db auth jid fid now).2.applications = db.applications ∨
    (∃ a jid0, auth = some a ∧ jid = some jid0 ∧
      db.applications.any
        (fun x => x.jobId = jid0 && x.jobSeekerId = a.userId) = false ∧
      (applicationsPOST db auth jid fid now).2.applications =
        db.applications ++
          [{ id := fid, jobId := jid0, jobSeekerId := a.userId,
             status := AppStatus.Pending, rating := some 0 }]) := by
  cases auth with
  | none => exact Or.inl rfl
  | some a =>
    by_cases hrole : a.role ≠ Role.jobSeeker
    · left
      unfold applicationsPOST
      dsimp only
      rw [if_pos hrole]
    · cases jid with
      | none =>
        left
        unfold applicationsPOST
        dsimp only
        rw [if_neg hrole]
      | some jid0 =>
        unfold applicationsPOST
        dsimp only
        rw [if_neg hrole]
        cases hjob : db.jobs.find? (fun j => j.id = jid0) with
        | none => exact Or.inl rfl
        | some job =>
          dsimp only
          by_cases hact : job.status ≠ JobStatus.Active
          · rw [if_pos hact]
            exact Or.inl rfl
          · rw [if_neg hact]
            by_cases hdl : deadlinePassed job.deadline now = true
            · rw [if_pos hdl]
              exact Or.inl rfl
            · rw [if_neg hdl]
              cases hanyc : db.applications.any
                  (fun x => x.jobId = jid0 && x.jobSeekerId = a.userId) with
              | true => rw [if_pos rfl]; exact Or.inl rfl
              | false =>
                rw [if_neg Bool.false_ne_true]
                cases hsk : db.jobSeekers.find? (fun s => s.id = a.userId) with
                | none => exact Or.inl rfl
                | some seeker =>
                  dsimp only
                  by_cases hnm : seeker.firstName = "" ∨ seeker.lastName = ""
                  · rw [if_pos hnm]
                    exact Or.inl rfl
                  · rw [if_neg hnm]
                    by_cases hmir : seeker.appliedJobs.any
                        (fun aj => aj.jobId = jid0) = true
                    · rw [if_pos hmir]
                      exact Or.inl rfl
                    · rw [if_neg hmir]
                      exact Or.inr ⟨a, jid0, rfl, rfl, hanyc, rfl⟩

/-- The applications collection after a PATCH: unchanged on every reject
path, `$set` on the matching application on the 200 path. -/
theorem applicationPATCH_apps_cases (db : DB) (auth : Option Auth)
    (appId : OId) (rs : Option String) (rr : RatingField) :
    (applicationPATCH db auth appId rs rr).2.applications = db.applications ∨
    (applicationPATCH db auth appId rs rr).2.applications =
      setAppFields appId (patchStatusOf rs) (patchRatingOf rr)
        db.applications := by
  cases auth with
  | none => exact Or.inl rfl
  | some a =>
    by_cases hrole : a.role ≠ Role.employer
    · left
      unfold applicationPATCH
      dsimp only
      rw [if_pos hrole]
    · unfold applicationPATCH
      dsimp only
      rw [if_neg hrole]
      cases hap : db.applications.find? (fun x => x.id = appId) with
      | none => exact Or.inl rfl
      | some ap =>
        dsimp only
        cases hjob : db.jobs.find? (fun j => j.id = ap.jobId) with
        | none => exact Or.inl rfl
        | some job =>
          dsimp only
          by_cases hown : job.employerId ≠ a.userId
          · rw [if_pos hown]
            exact Or.inl rfl
          · rw [if_neg hown]
            right
            dsimp only
            split <;> rfl

/-- The applications collection after a seeker's delete: unchanged on every
reject path, filtered by the application id on the 200 path. -/
theorem myApplicationDELETE_apps_cases (db : DB) (auth : Option Auth)
    (appId : Option OId) :
    (myApplicationDELETE db auth appId).2.applications = db.applications ∨
    (∃ x, (myApplicationDELETE db auth appId).2.applications =
      db.applications.filter (fun ap => ap.id ≠ x)) := by
  cases auth with
  | none => exact Or.inl rfl
  | some a =>
    by_cases hrole : a.role ≠ Role.jobSeeker
    · left
      unfold myApplicationDELETE
      dsimp only
      rw [if_pos hrole]
    · cases appId with
      | none =>
        left
        unfold myApplicationDELETE
        dsimp only
        rw [if_neg hrole]
      | some appId0 =>
        unfold myApplicationDELETE
        dsimp only
        rw [if_neg hrole]
        cases hap : db.applications.find? (fun x => x.id = appId0) with
        | none => exact Or.inl rfl
        | some ap =>
          dsimp only
          by_cases hown : ap.jobSeekerId ≠ a.userId
          · rw [if_pos hown]
            exact Or.inl rfl
          · rw [if_neg hown]
            exact Or.inr ⟨appId0, rfl⟩

/-- The applications collection after a job delete: unchanged on every
reject path, filtered by the job id on the 200 path. -/
theorem jobDELETE_apps_cases (db : DB) (auth : Option Auth) (jid : OId) :
    (jobDELETE db auth jid).2.applications = db.applications ∨
    (jobDELETE db auth jid).2.applications =
      db.applications.filter (fun ap => ap.jobId ≠ jid) := by
  cases auth with
  | none => exact Or.inl rfl
  | some a =>
    by_cases hrole : a.role ≠ Role.employer
    · left
      unfold jobDELETE
      dsimp only
      rw [if_pos hrole]
    · unfold jobDELETE
      dsimp only
      rw [if_neg hrole]
      cases hj : db.jobs.find? (fun j => j.id = jid) with
      | none => exact Or.inl rfl
      | some job =>
        dsimp only
        by_cases hown : job.employerId ≠ a.userId
        · rw [if_pos hown]
          exact Or.inl rfl
        · rw [if_neg hown]
          exact Or.inr rfl

/-- A `$set` changes neither `jobId` nor `jobSeekerId`, so it preserves
per-pair uniqueness. -/
theorem pairUnique_setAppFields (appId : OId) (ns : Option AppStatus)
    (nr : Option (Option Int)) (apps : List Application) (hp : pairUnique apps) :
    pairUnique (setAppFields appId ns nr apps) := by
  unfold setAppFields
  unfold pairUnique at *
  rw [List.pairwise_map]
  refine hp.imp ?_
  intro a b hr hcon
  apply hr
  have hja : ∀ x : Application,
      (if x.id = appId then
        { x with status := ns.getD x.status, rating := nr.getD x.rating }
      else x).jobId = x.jobId := fun x => by split <;> rfl
  have hsa : ∀ x : Application,
      (if x.id = appId then
        { x with status := ns.getD x.status, rating := nr.getD x.rating }
      else x).jobSeekerId = x.jobSeekerId := fun x => by split <;> rfl
  exact ⟨by rw [← hja a, ← hja b]; exact hcon.1,
         by rw [← hsa a, ← hsa b]; exact hcon.2⟩

/-- The apply handler preserves per-pair uniqueness: it only appends an
application after checking that no application for the pair exists. -/
theorem pairUnique_applicationsPOST (db : DB) (auth : Option Auth)
    (jid : Option OId) (fid : OId) (now : Int)
    (hp : pairUnique db.applications) :
    pairUnique (applicationsPOST db auth jid fid now).2.applications := by
  rcases applicationsPOST_apps_cases db auth jid fid now with
    h | ⟨a, jid0, _, _, hany, h⟩ <;> rw [h]
  · exact hp
  · unfold pairUnique at *
    rw [List.pairwise_append]
    refine ⟨hp, List.pairwise_singleton _ _, ?_⟩
    intro x hx y hy
    rw [List.mem_singleton] at hy
    subst hy
    intro hcon
    have h2 := List.any_eq_false.mp hany x hx
    apply h2
    simp [hcon.1, hcon.2]

/-- Duplicate-apply rejection: when an application for the pair already
exists — in the applications collection or in the seeker's mirror — the
apply handler does not return 201 and leaves the applications collection
unchanged. -/
theorem applicationsPOST_duplicate_rejected (db : DB)
    (hnd : (db.jobSeekers.map JobSeeker.id).Nodup)
    (uid jid fid : OId) (now : Int)
    (hdup : (∃ ap ∈ db.applications, ap.jobId = jid ∧ ap.jobSeekerId = uid) ∨
            (∃ s ∈ db.jobSeekers, s.id = uid ∧
              ∃ aj ∈ s.appliedJobs, aj.jobId = jid)) :
    (applicationsPOST db (some { userId := uid, role := Role.jobSeeker })
        (some jid) fid now).1 ≠ 201 ∧
    (applicationsPOST db (some { userId := uid, role := Role.jobSeeker })
        (some jid) fid now).2.applications = db.applications := by
  unfold applicationsPOST
  dsimp only
  rw [if_neg (by simp : ¬(Role.jobSeeker ≠ Role.jobSeeker))]
  cases hjob : db.jobs.find? (fun j => j.id = jid) with
  | none => exact ⟨Nat.ne_of_beq_eq_false rfl, rfl⟩
  | some job =>
    dsimp only
    by_cases hact : job.status ≠ JobStatus.Active
    · rw [if_pos hact]
      exact ⟨Nat.ne_of_beq_eq_false rfl, rfl⟩
    · rw [if_neg hact]
      by_cases hdl : deadlinePassed job.deadline now = true
      · rw [if_pos hdl]
        exact ⟨Nat.ne_of_beq_eq_false rfl, rfl⟩
      · rw [if_neg hdl]
        cases hanyc : db.applications.any
            (fun x => x.jobId = jid && x.jobSeekerId = uid) with
        | true => rw [if_pos rfl]; exact ⟨Nat.ne_of_beq_eq_false rfl, rfl⟩
        | false =>
          rw [if_neg Bool.false_ne_true]
          cases hsk : db.jobSeekers.find? (fun s => s.id = uid) with
          | none => exact ⟨Nat.ne_of_beq_eq_false rfl, rfl⟩
          | some seeker =>
            dsimp only
            by_cases hnm : seeker.firstName = "" ∨ seeker.lastName = ""
            · rw [if_pos hnm]
              exact ⟨Nat.ne_of_beq_eq_false rfl, rfl⟩
            · rw [if_neg hnm]
              by_cases hmir : seeker.appliedJobs.any
                  (fun aj => aj.jobId = jid) = true
              · rw [if_pos hmir]
                exact ⟨Nat.ne_of_beq_eq_false rfl, rfl⟩
              · exfalso
                rcases hdup with ⟨ap, hmem, hj, hs⟩ |
                    ⟨s, hsmem, hsid, aj, hajmem, hajjid⟩
                · rw [List.any_eq_false] at hanyc
                  exact hanyc ap hmem (by simp [hj, hs])
                · have hseekmem : seeker ∈ db.jobSeekers :=
                    List.mem_of_find?_eq_some hsk
                  have hseekid : seeker.id = uid := by
                    have h := List.find?_some hsk
                    exact of_decide_eq_true h
                  have hss : s = seeker :=
                    List.inj_on_of_nodup_map hnd hsmem hseekmem
                      (by rw [hsid, hseekid])
                  subst hss
                  exact hmir (List.any_eq_true.mpr ⟨aj, hajmem, by simp [hajjid]⟩)

/-- The dual-write invariant only reads the applications and job-seekers
collections, so it transfers between states agreeing on those. -/
theorem consistent_of_same (db db' : DB)
    (ha : db'.applications = db.applications)
    (hs : db'.jobSeekers = db.jobSeekers) (hc : consistent db) :
    consistent db' := by
  obtain ⟨h1, h2⟩ := hc
  constructor
  · intro ap hap
    rw [ha] at hap
    obtain ⟨s, hsm, hsid, hcnt, hmm⟩ := h1 ap hap
    exact ⟨s, by rw [hs]; exact hsm, hsid, hcnt, hmm⟩
  · intro s hsm aj haj
    rw [hs] at hsm
    obtain ⟨ap, hapm, h⟩ := h2 s hsm aj haj
    exact ⟨ap, by rw [ha]; exact hapm, h⟩

/-- Core of the apply dual-write: appending a fresh application and pushing
its mirror entry onto the owning seeker preserves the invariant. -/
theorem consistent_apply_core (db : DB) (uid jid fid : OId)
    (hnd : (db.jobSeekers.map JobSeeker.id).Nodup)
    (hc : consistent db)
    (hfresh : fid ∉ db.applications.map Application.id)
    (seeker : JobSeeker)
    (hsk : db.jobSeekers.find? (fun s => s.id = uid) = some seeker)
    (hmir : seeker.appliedJobs.any (fun aj => aj.jobId = jid) = false) :
    consistent
      { db with
        applications := db.applications ++
          [{ id := fid, jobId := jid, jobSeekerId := uid,
             status := AppStatus.Pending, rating := some 0 }],
        jobs := incApplicants jid 1 db.jobs,
        jobSeekers := pushMirror uid
          { jobId := jid, applicationId := fid,
            status := AppStatus.Pending, rating := some 0 } db.jobSeekers } := by
  obtain ⟨hc1, hc2⟩ := hc
  have hseekmem : seeker ∈ db.jobSeekers := List.mem_of_find?_eq_some hsk
  have hseekid : seeker.id = uid := by
    have h := List.find?_some hsk
    exact of_decide_eq_true h
  -- the fresh id occurs in no stored application and hence in no mirror entry
  have hfreshapp : ∀ b ∈ db.applications, b.id ≠ fid := by
    intro b hb he
    exact hfresh (he ▸ List.mem_map.mpr ⟨b, hb, rfl⟩)
  have hfreshmir : ∀ s ∈ db.jobSeekers, ∀ aj ∈ s.appliedJobs,
      aj.applicationId ≠ fid := by
    intro s hs aj haj he
    obtain ⟨ap0, hap0, hid0, _, _⟩ := hc2 s hs aj haj
    exact hfreshapp ap0 hap0 (hid0.trans he)
  -- how the push rewrites each seeker document
  have hpush_self : ∀ s ∈ db.jobSeekers, s.id = uid →
      (if s.id = uid then
        if s.appliedJobs.any (fun aj => aj.jobId = jid) then s
        else { s with appliedJobs := s.appliedJobs ++
          [{ jobId := jid, applicationId := fid,
             status := AppStatus.Pending, rating := some 0 }] }
      else s) =
      { s with appliedJobs := s.appliedJobs ++
        [{ jobId := jid, applicationId := fid,
           status := AppStatus.Pending, rating := some 0 }] } := by
    intro s hs hsu
    have hss : s = seeker := List.inj_on_of_nodup_map hnd hs hseekmem
      (by rw [hsu, hseekid])
    subst hss
    rw [if_pos hsu, if_neg (by rw [hmir]; exact Bool.false_ne_true)]
  constructor
  · intro ap hap
    rcases List.mem_append.mp hap with hap | hap
    · -- an old application keeps its mirror; the push can only add an
      -- entry with the fresh id, which never matches it
      obtain ⟨s, hsm, hsid, hcnt, hmm⟩ := hc1 ap hap
      by_cases hsu : s.id = uid
      · refine ⟨_, List.mem_map.mpr ⟨s, hsm, rfl⟩, ?_⟩
        rw [hpush_self s hsm hsu]
        refine ⟨hsid, ?_, ?_⟩
        · rw [List.countP_append, hcnt]
          have hne : fid ≠ ap.id := fun he => hfreshapp ap hap he.symm
          simp [List.countP_cons, hne]
        · intro aj haj hajid
          rcases List.mem_append.mp haj with haj | haj
          · exact hmm aj haj hajid
          · rw [List.mem_singleton] at haj
            subst haj
            exact absurd hajid (fun he => hfreshapp ap hap (by simpa using he.symm))
      · refine ⟨_, List.mem_map.mpr ⟨s, hsm, rfl⟩, ?_⟩
        rw [if_neg hsu]
        exact ⟨hsid, hcnt, hmm⟩
    · -- the fresh application is mirrored exactly once, by the pushed entry
      rw [List.mem_singleton] at hap
      subst hap
      refine ⟨_, List.mem_map.mpr ⟨seeker, hseekmem, rfl⟩, ?_⟩
      rw [hpush_self seeker hseekmem hseekid]
      have hzero : seeker.appliedJobs.countP
          (fun aj => decide (aj.applicationId = fid)) = 0 := by
        rw [List.countP_eq_zero]
        intro aj haj
        simpa using hfreshmir seeker hseekmem aj haj
      refine ⟨hseekid, ?_, ?_⟩
      · rw [List.countP_append, hzero]
        simp [List.countP_cons]
      · intro aj haj hajid
        rcases List.mem_append.mp haj with haj | haj
        · exact absurd hajid (hfreshmir seeker hseekmem aj haj)
        · rw [List.mem_singleton] at haj
          subst haj
          exact ⟨rfl, rfl, rfl, rfl⟩
  · intro s' hs' aj haj
    obtain ⟨s, hsm, rfl⟩ := List.mem_map.mp hs'
    by_cases hsu : s.id = uid
    · rw [hpush_self s hsm hsu] at haj ⊢
      rcases List.mem_append.mp haj with haj | haj
      · obtain ⟨ap0, hap0, hid0, hsid0, hm0⟩ := hc2 s hsm aj haj
        exact ⟨ap0, List.mem_append_left _ hap0, hid0, hsid0, hm0⟩
      · rw [List.mem_singleton] at haj
        subst haj
        refine ⟨_, List.mem_append_right _ (List.mem_singleton_self _),
          rfl, hsu.symm, rfl, rfl, rfl, rfl⟩
    · rw [if_neg hsu] at haj ⊢
      obtain ⟨ap0, hap0, hid0, hsid0, hm0⟩ := hc2 s hsm aj haj
      exact ⟨ap0, List.mem_append_left _ hap0, hid0, hsid0, hm0⟩

theorem patchAppOne_id (appId : OId) (ns : Option AppStatus) (nr : Option (Option Int))
    (b : Application) : (patchAppOne appId ns nr b).id = b.id := by
  unfold patchAppOne; split <;> rfl

theorem patchAppOne_jobId (appId : OId) (ns : Option AppStatus)
    (nr : Option (Option Int)) (b : Application) :
    (patchAppOne appId ns nr b).jobId = b.jobId := by
  unfold patchAppOne; split <;> rfl

theorem patchAppOne_jobSeekerId (appId : OId) (ns : Option AppStatus)
    (nr : Option (Option Int)) (b : Application) :
    (patchAppOne appId ns nr b).jobSeekerId = b.jobSeekerId := by
  unfold patchAppOne; split <;> rfl

theorem patchAppOne_of_ne (appId : OId) (ns : Option AppStatus)
    (nr : Option (Option Int)) (b : Application) (h : b.id ≠ appId) :
    patchAppOne appId ns nr b = b := by
  unfold patchAppOne; rw [if_neg h]

theorem patchAppOne_of_eq (appId : OId) (ns : Option AppStatus)
    (nr : Option (Option Int)) (b : Application) (h : b.id = appId) :
    patchAppOne appId ns nr b =
      { b with status := ns.getD b.status, rating := nr.getD b.rating } := by
  unfold patchAppOne; rw [if_pos h]

theorem patchSeekerOne_id (uid appId : OId) (ns : Option AppStatus)
    (nr : Option (Option Int)) (s : JobSeeker) :
    (patchSeekerOne uid appId ns nr s).id = s.id := by
  unfold patchSeekerOne; split <;> rfl

theorem patchSeekerOne_of_pos (uid appId : OId) (ns : Option AppStatus)
    (nr : Option (Option Int)) (s : JobSeeker)
    (h : s.id = uid ∧
      s.appliedJobs.any (fun aj => aj.applicationId = appId) = true) :
    patchSeekerOne uid appId ns nr s =
      { s with
        appliedJobs :=
          updateFirst (fun aj => aj.applicationId = appId)
            (patchMirrorEntry ns nr) s.appliedJobs } := by
  unfold patchSeekerOne; rw [if_pos h]

theorem patchSeekerOne_of_neg (uid appId : OId) (ns : Option AppStatus)
    (nr : Option (Option Int)) (s : JobSeeker)
    (h : ¬(s.id = uid ∧
      s.appliedJobs.any (fun aj => aj.applicationId = appId) = true)) :
    patchSeekerOne uid appId ns nr s = s := by
  unfold patchSeekerOne; rw [if_neg h]

/-- The mirror `$set` transports the mirroring relation through the patch. -/
theorem mirrors_patch (appId : OId) (ns : Option AppStatus) (nr : Option (Option Int))
    (ap : Application) (x : AppliedJob) (hid : ap.id = appId)
    (h : mirrors ap x) :
    mirrors (patchAppOne appId ns nr ap) (patchMirrorEntry ns nr x) := by
  obtain ⟨h1, h2, h3, h4⟩ := h
  rw [patchAppOne_of_eq appId ns nr ap hid]
  refine ⟨h1, h2, ?_, ?_⟩
  · show ns.getD x.status = ns.getD ap.status
    rw [h3]
  · show nr.getD x.rating = nr.getD ap.rating
    rw [h4]

/-- Core of the PATCH dual-write: `$set` on the application together with
the positional `$set` on the owner's first matching mirror entry preserves
the invariant. -/
theorem consistent_patch_core (db : DB)
    (hndA : (db.applications.map Application.id).Nodup)
    (hndS : (db.jobSeekers.map JobSeeker.id).Nodup)
    (hc : consistent db) (appId : OId) (ns : Option AppStatus)
    (nr : Option (Option Int)) (ap : Application)
    (hap : db.applications.find? (fun x => x.id = appId) = some ap) :
    consistent
      { db with
        applications := setAppFields appId ns nr db.applications,
        jobSeekers :=
          if ns.isSome ∨ nr.isSome then
            setMirrorFields ap.jobSeekerId appId ns nr db.jobSeekers
          else db.jobSeekers } := by
  have hapmem : ap ∈ db.applications := List.mem_of_find?_eq_some hap
  have hapid : ap.id = appId := by
    have h := List.find?_some hap
    exact of_decide_eq_true h
  subst hapid
  by_cases hcond : ns.isSome = true ∨ nr.isSome = true
  case neg =>
    rw [if_neg hcond]
    have hns : ns = none :=
      Option.not_isSome_iff_eq_none.mp (fun h => hcond (Or.inl h))
    have hnr : nr = none :=
      Option.not_isSome_iff_eq_none.mp (fun h => hcond (Or.inr h))
    rw [hns, hnr, setAppFields_none_none]
    exact consistent_of_same db _ rfl rfl hc
  case pos =>
    rw [if_pos hcond]
    obtain ⟨hc1, hc2⟩ := hc
    obtain ⟨s₀, hs₀m, hs₀id, hcnt₀, hmm₀⟩ := hc1 ap hapmem
    obtain ⟨l₁, x, l₂, hsplit, hqx, hz₁, hz₂⟩ := countP_eq_one_split _ _ hcnt₀
    have hxmem : x ∈ s₀.appliedJobs := by
      rw [hsplit]
      exact List.mem_append_right _ (List.mem_cons_self _ _)
    have hxid : x.applicationId = ap.id := of_decide_eq_true hqx
    have hmx : mirrors ap x := hmm₀ x hxmem hxid
    have hany₀ : s₀.appliedJobs.any
        (fun aj => aj.applicationId = ap.id) = true :=
      List.any_eq_true.mpr ⟨x, hxmem, hqx⟩
    have hupd : updateFirst (fun aj => aj.applicationId = ap.id)
        (patchMirrorEntry ns nr) s₀.appliedJobs =
        l₁ ++ patchMirrorEntry ns nr x :: l₂ := by
      rw [hsplit, updateFirst_append_of_countP_zero _ _ _ _ hz₁,
        updateFirst_cons_of_pos (fun aj => decide (aj.applicationId = ap.id))
          (patchMirrorEntry ns nr) x l₂ hqx]
    have hps₀ : patchSeekerOne ap.jobSeekerId ap.id ns nr s₀ =
        { s₀ with appliedJobs := l₁ ++ patchMirrorEntry ns nr x :: l₂ } := by
      rw [patchSeekerOne_of_pos _ _ _ _ _ ⟨hs₀id, hany₀⟩, hupd]
    constructor
    · intro ap' hap'
      obtain ⟨b, hb, rfl⟩ := List.mem_map.mp hap'
      by_cases hbid : b.id = ap.id
      · have hba : b = ap := List.inj_on_of_nodup_map hndA hb hapmem hbid
        subst hba
        refine ⟨patchSeekerOne b.jobSeekerId b.id ns nr s₀,
          List.mem_map.mpr ⟨s₀, hs₀m, rfl⟩, ?_, ?_, ?_⟩
        · rw [hps₀]
          show s₀.id = (patchAppOne b.id ns nr b).jobSeekerId
          rw [patchAppOne_jobSeekerId]
          exact hs₀id
        · rw [hps₀]
          show List.countP
            (fun aj => decide (aj.applicationId = (patchAppOne b.id ns nr b).id))
            (l₁ ++ patchMirrorEntry ns nr x :: l₂) = 1
          simp only [patchAppOne_id]
          rw [List.countP_append, hz₁, List.countP_cons, hz₂]
          simp [patchMirrorEntry, hxid]
        · rw [hps₀]
          intro aj haj hajid
          simp only [patchAppOne_id] at hajid
          rcases List.mem_append.mp haj with haj | haj
          · have hnq := List.countP_eq_zero.mp hz₁ aj haj
            simp only [decide_eq_true_eq] at hnq
            exact absurd hajid hnq
          · rcases List.mem_cons.mp haj with rfl | haj
            · exact mirrors_patch b.id ns nr b x rfl hmx
            · have hnq := List.countP_eq_zero.mp hz₂ aj haj
              simp only [decide_eq_true_eq] at hnq
              exact absurd hajid hnq
      · rw [patchAppOne_of_ne _ _ _ _ hbid]
        obtain ⟨s₁, hs₁m, hs₁id, hcnt₁, hmm₁⟩ := hc1 b hb
        refine ⟨patchSeekerOne ap.jobSeekerId ap.id ns nr s₁,
          List.mem_map.mpr ⟨s₁, hs₁m, rfl⟩, ?_, ?_, ?_⟩
        · rw [patchSeekerOne_id]
          exact hs₁id
        · by_cases hcnd : s₁.id = ap.jobSeekerId ∧
              s₁.appliedJobs.any (fun aj => aj.applicationId = ap.id) = true
          · rw [patchSeekerOne_of_pos _ _ _ _ _ hcnd]
            show List.countP (fun aj => decide (aj.applicationId = b.id))
              (updateFirst (fun aj => aj.applicationId = ap.id)
                (patchMirrorEntry ns nr) s₁.appliedJobs) = 1
            rw [countP_updateFirst
              (fun (aj : AppliedJob) => decide (aj.applicationId = ap.id))
              (fun (aj : AppliedJob) => decide (aj.applicationId = b.id))
              (patchMirrorEntry ns nr) s₁.appliedJobs (by intro aj; rfl)]
            exact hcnt₁
          · rw [patchSeekerOne_of_neg _ _ _ _ _ hcnd]
            exact hcnt₁
        · by_cases hcnd : s₁.id = ap.jobSeekerId ∧
              s₁.appliedJobs.any (fun aj => aj.applicationId = ap.id) = true
          · rw [patchSeekerOne_of_pos _ _ _ _ _ hcnd]
            intro aj haj hajid
            rcases mem_updateFirst _ _ _ _ haj with hm | ⟨x₀, _, hqx₀, rfl⟩
            · exact hmm₁ aj hm hajid
            · exfalso
              have h1 : x₀.applicationId = ap.id := of_decide_eq_true hqx₀
              have h2 : x₀.applicationId = b.id := hajid
              exact hbid (h2.symm.trans h1)
          · rw [patchSeekerOne_of_neg _ _ _ _ _ hcnd]
            exact hmm₁
    · intro s' hs' aj' haj'
      obtain ⟨s₁, hs₁m, rfl⟩ := List.mem_map.mp hs'
      by_cases hcnd : s₁.id = ap.jobSeekerId ∧
          s₁.appliedJobs.any (fun aj => aj.applicationId = ap.id) = true
      · have hs₁s₀ : s₁ = s₀ :=
          List.inj_on_of_nodup_map hndS hs₁m hs₀m (by rw [hcnd.1, hs₀id])
        subst hs₁s₀
        rw [hps₀] at haj' ⊢
        rcases List.mem_append.mp haj' with hm | hm
        · have hajm : aj' ∈ s₁.appliedJobs := by
            rw [hsplit]
            exact List.mem_append_left _ hm
          obtain ⟨ap0, hap0m, hid0, hsid0, hm0⟩ := hc2 s₁ hs₁m aj' hajm
          have hap0ne : ap0.id ≠ ap.id := by
            intro he
            have hnq := List.countP_eq_zero.mp hz₁ aj' hm
            simp only [decide_eq_true_eq] at hnq
            exact hnq (hid0.symm.trans he)
          have hmem' : ap0 ∈ setAppFields ap.id ns nr db.applications := by
            have h : patchAppOne ap.id ns nr ap0 ∈
                setAppFields ap.id ns nr db.applications :=
              List.mem_map.mpr ⟨ap0, hap0m, rfl⟩
            rwa [patchAppOne_of_ne _ _ _ _ hap0ne] at h
          exact ⟨ap0, hmem', hid0, hsid0, hm0⟩
        · rcases List.mem_cons.mp hm with rfl | hm
          · refine ⟨patchAppOne ap.id ns nr ap,
              List.mem_map.mpr ⟨ap, hapmem, rfl⟩, ?_, ?_, ?_⟩
            · rw [patchAppOne_id]
              exact hxid.symm
            · rw [patchAppOne_jobSeekerId]
              exact hs₀id.symm
            · exact mirrors_patch ap.id ns nr ap x rfl hmx
          · have hajm : aj' ∈ s₁.appliedJobs := by
              rw [hsplit]
              exact List.mem_append_right _ (List.mem_cons_of_mem _ hm)
            obtain ⟨ap0, hap0m, hid0, hsid0, hm0⟩ := hc2 s₁ hs₁m aj' hajm
            have hap0ne : ap0.id ≠ ap.id := by
              intro he
              have hnq := List.countP_eq_zero.mp hz₂ aj' hm
              simp only [decide_eq_true_eq] at hnq
              exact hnq (hid0.symm.trans he)
            have hmem' : ap0 ∈ setAppFields ap.id ns nr db.applications := by
              have h : patchAppOne ap.id ns nr ap0 ∈
                  setAppFields ap.id ns nr db.applications :=
                List.mem_map.mpr ⟨ap0, hap0m, rfl⟩
              rwa [patchAppOne_of_ne _ _ _ _ hap0ne] at h
            exact ⟨ap0, hmem', hid0, hsid0, hm0⟩
      · rw [patchSeekerOne_of_neg _ _ _ _ _ hcnd] at haj' ⊢
        obtain ⟨ap0, hap0m, hid0, hsid0, hm0⟩ := hc2 s₁ hs₁m aj' haj'
        by_cases hap0id : ap0.id = ap.id
        · exfalso
          have hap0ap : ap0 = ap :=
            List.inj_on_of_nodup_map hndA hap0m hapmem hap0id
          apply hcnd
          constructor
          · rw [← hsid0, hap0ap]
          · exact List.any_eq_true.mpr ⟨aj', haj',
              by simp [hid0.symm.trans hap0id]⟩
        · have hmem' : ap0 ∈ setAppFields ap.id ns nr db.applications := by
            have h : patchAppOne ap.id ns nr ap0 ∈
                setAppFields ap.id ns nr db.applications :=
              List.mem_map.mpr ⟨ap0, hap0m, rfl⟩
            rwa [patchAppOne_of_ne _ _ _ _ hap0id] at h
          exact ⟨ap0, hmem', hid0, hsid0, hm0⟩

/-- Core of the delete dual-write: dropping the mirror entries with the
application's id from the owner and deleting the application preserves the
invariant. -/
theorem consistent_delete_core (db : DB)
    (hndA : (db.applications.map Application.id).Nodup)
    (hc : consistent db) (uid appId : OId) (ap : Application)
    (hap : db.applications.find? (fun x => x.id = appId) = some ap)
    (hown : ap.jobSeekerId = uid) :
    consistent
      { db with
        jobSeekers := dropMirrorByAppId uid appId db.jobSeekers,
        applications := db.applications.filter (fun x => x.id ≠ appId),
        jobs := incApplicants ap.jobId (-1) db.jobs } := by
  obtain ⟨hc1, hc2⟩ := hc
  have hapmem : ap ∈ db.applications := List.mem_of_find?_eq_some hap
  have hapid : ap.id = appId := by
    have h := List.find?_some hap
    exact of_decide_eq_true h
  subst hapid
  subst hown
  constructor
  · intro ap' hap'
    have hap'f := List.mem_filter.mp hap'
    have hap'mem : ap' ∈ db.applications := hap'f.1
    have hap'ne : ap'.id ≠ ap.id := of_decide_eq_true hap'f.2
    obtain ⟨s₁, hs₁m, hs₁id, hcnt₁, hmm₁⟩ := hc1 ap' hap'mem
    refine ⟨_, List.mem_map.mpr ⟨s₁, hs₁m, rfl⟩, ?_⟩
    by_cases hsu : s₁.id = ap.jobSeekerId
    · rw [if_pos hsu]
      refine ⟨hs₁id, ?_, ?_⟩
      · have himp : ∀ y ∈ s₁.appliedJobs,
            decide (y.applicationId = ap'.id) = true →
            decide (y.applicationId ≠ ap.id) = true := by
          intro y _ hqy
          simp [of_decide_eq_true hqy, hap'ne]
        rw [countP_filter_of_imp _ _ _ himp]
        exact hcnt₁
      · intro aj haj hajid
        exact hmm₁ aj (List.mem_filter.mp haj).1 hajid
    · rw [if_neg hsu]
      exact ⟨hs₁id, hcnt₁, hmm₁⟩
  · intro s' hs' aj' haj'
    obtain ⟨s₁, hs₁m, rfl⟩ := List.mem_map.mp hs'
    by_cases hsu : s₁.id = ap.jobSeekerId
    · rw [if_pos hsu] at haj' ⊢
      have hajf := List.mem_filter.mp haj'
      have hajne : aj'.applicationId ≠ ap.id := of_decide_eq_true hajf.2
      obtain ⟨ap0, hap0m, hid0, hsid0, hm0⟩ := hc2 s₁ hs₁m aj' hajf.1
      have hap0ne : ap0.id ≠ ap.id := by
        rw [hid0]
        exact hajne
      exact ⟨ap0, List.mem_filter.mpr ⟨hap0m, by simp [hap0ne]⟩,
        hid0, hsid0, hm0⟩
    · rw [if_neg hsu] at haj' ⊢
      obtain ⟨ap0, hap0m, hid0, hsid0, hm0⟩ := hc2 s₁ hs₁m aj' haj'
      have hap0ne : ap0.id ≠ ap.id := by
        intro he
        have h := List.inj_on_of_nodup_map hndA hap0m hapmem he
        apply hsu
        rw [← hsid0, h]
      exact ⟨ap0, List.mem_filter.mpr ⟨hap0m, by simp [hap0ne]⟩,
        hid0, hsid0, hm0⟩

/-- Every outcome of the apply handler preserves the dual-write invariant
(a fresh Mongo ObjectId for the new application document is assumed). -/
theorem consistent_applicationsPOST (db : DB)
    (hndS : (db.jobSeekers.map JobSeeker.id).Nodup) (hc : consistent db)
    (auth : Option Auth) (jid : Option OId) (fid : OId) (now : Int)
    (hfresh : fid ∉ db.applications.map Application.id) :
    consistent (applicationsPOST db auth jid fid now).2 := by
  cases auth with
  | none => exact hc
  | some a =>
    by_cases hrole : a.role ≠ Role.jobSeeker
    · unfold applicationsPOST
      dsimp only
      rw [if_pos hrole]
      exact hc
    · cases jid with
      | none =>
        unfold applicationsPOST
        dsimp only
        rw [if_neg hrole]
        exact hc
      | some jid0 =>
        unfold applicationsPOST
        dsimp only
        rw [if_neg hrole]
        cases hjob : db.jobs.find? (fun j => j.id = jid0) with
        | none => exact hc
        | some job =>
          dsimp only
          by_cases hact : job.status ≠ JobStatus.Active
          · rw [if_pos hact]
            exact hc
          · rw [if_neg hact]
            by_cases hdl : deadlinePassed job.deadline now = true
            · rw [if_pos hdl]
              exact consistent_of_same db _ rfl rfl hc
            · rw [if_neg hdl]
              cases hanyc : db.applications.any
                  (fun x => x.jobId = jid0 && x.jobSeekerId = a.userId) with
              | true => rw [if_pos rfl]; exact hc
              | false =>
                rw [if_neg Bool.false_ne_true]
                cases hsk : db.jobSeekers.find? (fun s => s.id = a.userId) with
                | none => exact hc
                | some seeker =>
                  dsimp only
                  by_cases hnm : seeker.firstName = "" ∨ seeker.lastName = ""
                  · rw [if_pos hnm]
                    exact hc
                  · rw [if_neg hnm]
                    by_cases hmir : seeker.appliedJobs.any
                        (fun aj => aj.jobId = jid0) = true
                    · rw [if_pos hmir]
                      exact hc
                    · rw [if_neg hmir]
                      have hmir2 : seeker.appliedJobs.any
                          (fun aj => aj.jobId = jid0) = false := by
                        cases hval : seeker.appliedJobs.any
                            (fun aj => aj.jobId = jid0)
                        · rfl
                        · exact absurd hval hmir
                      exact consistent_apply_core db a.userId jid0 fid hndS hc
                        hfresh seeker hsk hmir2

/-- Every outcome of the PATCH handler preserves the dual-write invariant. -/
theorem consistent_applicationPATCH (db : DB)
    (hndA : (db.applications.map Application.id).Nodup)
    (hndS : (db.jobSeekers.map JobSeeker.id).Nodup) (hc : consistent db)
    (auth : Option Auth) (appId : OId) (rs : Option String)
    (rr : RatingField) :
    consistent (applicationPATCH db auth appId rs rr).2 := by
  cases auth with
  | none => exact hc
  | some a =>
    by_cases hrole : a.role ≠ Role.employer
    · unfold applicationPATCH
      dsimp only
      rw [if_pos hrole]
      exact hc
    · unfold applicationPATCH
      dsimp only
      rw [if_neg hrole]
      cases hap : db.applications.find? (fun x => x.id = appId) with
      | none => exact hc
      | some ap =>
        dsimp only
        cases hjob : db.jobs.find? (fun j => j.id = ap.jobId) with
        | none => exact hc
        | some job =>
          dsimp only
          by_cases hown : job.employerId ≠ a.userId
          · rw [if_pos hown]
            exact hc
          · rw [if_neg hown]
            have hcore := consistent_patch_core db hndA hndS hc appId
              (patchStatusOf rs) (patchRatingOf rr) ap hap
            dsimp only
            by_cases hcond : (patchStatusOf rs).isSome = true ∨
                (patchRatingOf rr).isSome = true
            · rw [if_pos hcond] at hcore
              rw [if_pos hcond]
              exact hcore
            · rw [if_neg hcond] at hcore
              rw [if_neg hcond]
              exact hcore

/-- Every outcome of the seeker's delete handler preserves the dual-write
invariant. -/
theorem consistent_myApplicationDELETE (db : DB)
    (hndA : (db.applications.map Application.id).Nodup) (hc : consistent db)
    (auth : Option Auth) (appId : Option OId) :
    consistent (myApplicationDELETE db auth appId).2 := by
  cases auth with
  | none => exact hc
  | some a =>
    by_cases hrole : a.role ≠ Role.jobSeeker
    · unfold myApplicationDELETE
      dsimp only
      rw [if_pos hrole]
      exact hc
    · cases appId with
      | none =>
        unfold myApplicationDELETE
        dsimp only
        rw [if_neg hrole]
        exact hc
      | some appId0 =>
        unfold myApplicationDELETE
        dsimp only
        rw [if_neg hrole]
        cases hap : db.applications.find? (fun x => x.id = appId0) with
        | none => exact hc
        | some ap =>
          dsimp only
          by_cases hown : ap.jobSeekerId ≠ a.userId
          · rw [if_pos hown]
            exact hc
          · rw [if_neg hown]
            have hown2 : ap.jobSeekerId = a.userId := not_ne_iff.mp hown
            exact consistent_delete_core db hndA hc a.userId appId0 ap hap hown2

/-! ## Claims -/

/-- C5: a PATCH to `/api/applications/[applicationId]` by an authenticated
employer who does not own the application's job returns 403 and leaves the
database — in particular the application record and the seeker's
`appliedJobs` mirror — unchanged. -/
theorem c5_foreign_employer_patch_403 (db : DB) (eid appId : OId)
    (rs : Option String) (rr : RatingField) (ap : Application) (job : Job)
    (hap : db.applications.find? (fun x => x.id = appId) = some ap)
    (hjob : db.jobs.find? (fun j => j.id = ap.jobId) = some job)
    (hforeign : job.employerId ≠ eid) :
    applicationPATCH db (some { userId := eid, role := Role.employer }) appId rs rr
      = (403, db) := by
  simp [applicationPATCH, hap, hjob, hforeign]

/-- Witness for C5: employer 4 tries to PATCH application 50, whose job 20
belongs to employer 2. -/
theorem c5_witness :
    applicationPATCH exDB (some { userId := 4, role := Role.employer }) 50
      (some "Selected") (RatingField.num 3) = (403, exDB) :=
  c5_foreign_employer_patch_403 exDB 4 50 (some "Selected")
    (RatingField.num 3) exApp exJob
    (by decide) (by decide) (by decide)

/-- C7: when `POST /api/auth/login` finds the named user but the supplied
password fails the bcrypt comparison against the stored hash, the response
is 401 and no `auth_token` cookie is set. -/
theorem c7_login_wrong_password_401 (db : DB) (req : LoginReq)
    (verify : String → String → Bool) (user : JobSeeker ⊕ Employer)
    (hu : req.username ≠ "") (hp : req.password ≠ "")
    (hfound : loginFind db req = some user)
    (hbad : verify req.password (userHash user) = false) :
    loginPOST db req verify = (401, none, db) := by
  simp [loginPOST, hu, hp, hfound, hbad]

/-- Witness for C7: `alice` logs in with the wrong password. -/
theorem c7_witness :
    loginPOST exDB { username := "alice", password := "wrong", role := "job-seeker" }
      (fun p h => h = "hash-" ++ p) = (401, none, exDB) :=
  c7_login_wrong_password_401 exDB
    { username := "alice", password := "wrong", role := "job-seeker" }
    (fun p h => h = "hash-" ++ p) (Sum.inl exSeeker)
    (by decide) (by decide) (by decide) (by decide)

/-- C6: a well-formed registration request whose username already belongs
(after lowercasing — registration stores usernames lowercased, so the
lookup is case-insensitive) to an existing job seeker or employer is
answered with 409 and creates no user. -/
theorem c6_register_duplicate_username_409 (db : DB) (req : RegisterReq)
    (freshId : OId) (hash : String → String)
    (hu : req.username ≠ "") (hp : req.password ≠ "") (hf : req.firstName ≠ "")
    (hl : req.lastName ≠ "") (hr : req.role ≠ "")
    (hplen : ¬ req.password.data.length < 6)
    (hat : hasAtSign req.email = true)
    (hrole : req.role = "job-seeker" ∨ req.role = "employer")
    (hdup : (∃ s ∈ db.jobSeekers, s.username = lowerStr req.username) ∨
            (∃ e ∈ db.employers, e.username = lowerStr req.username)) :
    registerPOST db req freshId hash = (409, none, db) := by
  have he : req.email ≠ "" := by
    intro h
    rw [h] at hat
    exact absurd hat (by decide)
  have hany : (db.jobSeekers.any (fun s =>
        s.username = lowerStr req.username ||
        s.email = trimStr (lowerStr req.email)) ||
      db.employers.any (fun s =>
        s.username = lowerStr req.username ||
        s.email = trimStr (lowerStr req.email))) = true := by
    rcases hdup with ⟨s, hs, hn⟩ | ⟨e, he', hn⟩
    · exact Bool.or_eq_true_iff.mpr (Or.inl (List.any_eq_true.mpr ⟨s, hs, by simp [hn]⟩))
    · exact Bool.or_eq_true_iff.mpr (Or.inr (List.any_eq_true.mpr ⟨e, he', by simp [hn]⟩))
  have hplen2 : 6 ≤ req.password.length := Nat.not_lt.mp hplen
  rcases hrole with h | h <;>
    simp [registerPOST, hu, hp, hf, hl, hr, hplen, hplen2, he, hat, h, hany]

/-- C10: login never consults `isEmailVerified` — a user with matching
credentials but an unverified email still gets 200 and the `auth_token`
cookie; by contrast registration never sets a cookie (no auto-login), and
password reset refuses an unverified user with 403 even when their reset
token is valid and unexpired. -/
theorem c10_login_ignores_email_verification (db : DB) (req : LoginReq)
    (verify : String → String → Bool) (user : JobSeeker ⊕ Employer)
    (hu : req.username ≠ "") (hp : req.password ≠ "")
    (hfound : loginFind db req = some user)
    (hok : verify req.password (userHash user) = true)
    (hunv : userVerified user = false)
    (tok npw : String) (now : Int) (hash : String → String)
    (htok : tok ≠ "") (hnpw : npw ≠ "") (hnpwlen : ¬ npw.data.length < 6)
    (ruser : JobSeeker ⊕ Employer) (hrfound : resetFind db tok = some ruser)
    (hnexp : isTokenExpired (userResetExpiry ruser) now = false)
    (hrunv : userVerified ruser = false)
    (req2 : RegisterReq) (freshId : OId) :
    loginPOST db req verify
      = (200, some { userId := userId user, role := userRole user }, db) ∧
    (registerPOST db req2 freshId hash).2.1 = none ∧
    resetPasswordPOST db tok npw now hash = (403, db) := by
  refine ⟨?_, ?_, ?_⟩
  · simp [loginPOST, hu, hp, hfound, hok]
  · unfold registerPOST
    repeat' first | rfl | dsimp only | split
  · have hnpwlen2 : 6 ≤ npw.length := Nat.not_lt.mp hnpwlen
    simp [resetPasswordPOST, htok, hnpw, hnpwlen, hnpwlen2, hrfound, hnexp, hrunv]

/-- Witness for C10: unverified `alice` logs in with the right password; a
registration returns no cookie; `alice`'s valid reset token is refused 403. -/
theorem c10_witness :
    loginPOST exDB { username := "alice", password := "alice", role := "" }
        (fun p h => h = "hash-" ++ p)
      = (200, some { userId := 1, role := Role.jobSeeker }, exDB) ∧
    (registerPOST exDB
        { username := "carol", password := "secret7", firstName := "C",
          lastName := "D", role := "job-seeker", email := "c@d.ee" }
        99 (fun p => p)).2.1 = none ∧
    resetPasswordPOST exDB "reset-tok" "newpass7" 5 (fun p => p) = (403, exDB) :=
  c10_login_ignores_email_verification exDB
    { username := "alice", password := "alice", role := "" }
    (fun p h => h = "hash-" ++ p) (Sum.inl exSeeker)
    (by decide) (by decide) (by decide) (by decide) (by decide)
    "reset-tok" "newpass7" 5 (fun p => p)
    (by decide) (by decide) (by decide)
    (Sum.inl exSeeker) (by decide) (by decide) (by decide)
    { username := "carol", password := "secret7", firstName := "C",
      lastName := "D", role := "job-seeker", email := "c@d.ee" } 99

/-- C8: the status machine has unconditional transitions — whatever the
application's current status, a PATCH by the owning job's employer naming
any target status of the enum succeeds with 200 and stores the target
status; no pair of statuses is guarded or refused. -/
theorem c8_status_transitions_unconditional (db : DB) (eid appId : OId)
    (target : AppStatus) (rr : RatingField) (ap : Application) (job : Job)
    (hap : db.applications.find? (fun x => x.id = appId) = some ap)
    (hjob : db.jobs.find? (fun j => j.id = ap.jobId) = some job)
    (hown : job.employerId = eid) :
    (applicationPATCH db (some { userId := eid, role := Role.employer }) appId
        (some (statusToString target)) rr).1 = 200 ∧
    (∃ ap' ∈ (applicationPATCH db (some { userId := eid, role := Role.employer })
        appId (some (statusToString target)) rr).2.applications,
      ap'.id = appId ∧ ap'.status = target) ∧
    (∀ ap' ∈ (applicationPATCH db (some { userId := eid, role := Role.employer })
        appId (some (statusToString target)) rr).2.applications,
      ap'.id = appId → ap'.status = target) := by
  have hmem : ap ∈ db.applications := List.mem_of_find?_eq_some hap
  have hapid : ap.id = appId := by
    have := List.find?_some hap
    exact of_decide_eq_true this
  have happs : (applicationPATCH db (some { userId := eid, role := Role.employer })
      appId (some (statusToString target)) rr).2.applications =
      setAppFields appId (some target) (patchRatingOf rr) db.applications := by
    simp only [applicationPATCH, hap, hjob, hown, patchStatusOf,
      parseStatus_statusToString]
    simp
  refine ⟨by simp [applicationPATCH, hap, hjob, hown], ?_, ?_⟩
  · rw [happs]
    refine ⟨_, List.mem_map.mpr ⟨ap, hmem, rfl⟩, ?_⟩
    simp [patchAppOne, hapid]
  · rw [happs]
    intro ap' hap' hid
    obtain ⟨b, hb, rfl⟩ := List.mem_map.mp hap'
    by_cases hbid : b.id = appId
    · simp [patchAppOne, hbid]
    · simp [patchAppOne, hbid] at hid

/-- Witness for C8: employer 2 moves application 50 (Pending) directly to
`Rejected`. -/
theorem c8_witness :
    (applicationPATCH exDB (some { userId := 2, role := Role.employer }) 50
        (some (statusToString AppStatus.Rejected)) RatingField.undef).1 = 200 ∧
    (∃ ap' ∈ (applicationPATCH exDB (some { userId := 2, role := Role.employer })
        50 (some (statusToString AppStatus.Rejected))
        RatingField.undef).2.applications,
      ap'.id = 50 ∧ ap'.status = AppStatus.Rejected) ∧
    (∀ ap' ∈ (applicationPATCH exDB (some { userId := 2, role := Role.employer })
        50 (some (statusToString AppStatus.Rejected))
        RatingField.undef).2.applications,
      ap'.id = 50 → ap'.status = AppStatus.Rejected) :=
  c8_status_transitions_unconditional exDB 2 50 AppStatus.Rejected
    RatingField.undef exApp exJob
    (by decide) (by decide) (by decide)

/-- C4 counterexample: job 21 is Active with a deadline (0) already passed
at `now = 5`, yet the single-job GET (`GET /api/jobs/[jobId]`) returns it
with status `Active`, not `Closed` — the handler performs no deadline check,
so the claim that *any* read returns the expired job as Closed is false. -/
theorem c4_counterexample :
    exJobExpired ∈ exDB.jobs ∧
    exJobExpired.status = JobStatus.Active ∧
    deadlinePassed exJobExpired.deadline 5 = true ∧
    jobGET exDB 21 = (200, some JobStatus.Active, exDB) ∧
    (jobGET exDB 21).2.1 ≠ some JobStatus.Closed := by
  decide

/-- C4 amended: for an Active job with a passed deadline, a read via the
public jobs list closes it in the database and omits it from the returned
(Active-only) list; a read via the owning employer's job list reports it as
Closed and closes it in the database; the single-job GET, however, returns
the stored status unchanged (`Active`) and performs no deadline check. -/
theorem c4_deadline_close_on_list_reads_only (db : DB) (now : Int) (j : Job)
    (hmem : j ∈ db.jobs) (hact : j.status = JobStatus.Active)
    (hexp : deadlinePassed j.deadline now = true)
    (hnd : (db.jobs.map Job.id).Nodup) :
    (∃ j' ∈ (jobsGET db now).2.jobs, j'.id = j.id ∧ j'.status = JobStatus.Closed) ∧
    (∀ j' ∈ (jobsGET db now).1, j'.id ≠ j.id) ∧
    ((j.id, JobStatus.Closed) ∈
      (employerJobsGET db (some { userId := j.employerId, role := Role.employer })
        now).2.1) ∧
    (∃ j' ∈ (employerJobsGET db
        (some { userId := j.employerId, role := Role.employer }) now).2.2.jobs,
      j'.id = j.id ∧ j'.status = JobStatus.Closed) ∧
    jobGET db j.id = (200, some j.status, db) := by
  refine ⟨?_, ?_, ?_, ?_, ?_⟩
  · refine ⟨_, List.mem_map.mpr ⟨j, hmem, rfl⟩, ?_⟩
    simp [hact, hexp]
  · intro j' hj' hid
    simp only [jobsGET, List.mem_filter] at hj'
    obtain ⟨hj'mem, hj'act⟩ := hj'
    obtain ⟨b, hb, rfl⟩ := List.mem_map.mp hj'mem
    have hbid : b.id = j.id := by
      by_cases hc : b.status = JobStatus.Active ∧ deadlinePassed b.deadline now = true
      · simpa [closeExpired, hc] using hid
      · simpa [closeExpired, hc] using hid
    have hbj : b = j := List.inj_on_of_nodup_map hnd hb hmem hbid
    subst hbj
    simp [hact, hexp] at hj'act
  · have hj_mine : j ∈ db.jobs.filter (fun x => x.employerId = j.employerId) :=
      List.mem_filter.mpr ⟨hmem, by simp⟩
    have : (j.id, JobStatus.Closed) ∈
        (db.jobs.filter (fun x => x.employerId = j.employerId)).map (fun x =>
          (x.id,
           if x.status = JobStatus.Active ∧ deadlinePassed x.deadline now then
             JobStatus.Closed
           else x.status)) :=
      List.mem_map.mpr ⟨j, hj_mine, by simp [hact, hexp]⟩
    simpa [employerJobsGET] using this
  · refine ⟨_, List.mem_map.mpr ⟨j, hmem, rfl⟩, ?_⟩
    simp [closeExpiredOwned, hact, hexp]
  · have hfind : db.jobs.find? (fun x => x.id = j.id) = some j :=
      find?_job_id db.jobs j hnd hmem
    simp [jobGET, hfind]

/-- Witness for C4's amended theorem, at the expired job 21 of `exDB`. -/
theorem c4_witness :
    (∃ j' ∈ (jobsGET exDB 5).2.jobs, j'.id = 21 ∧ j'.status = JobStatus.Closed) ∧
    (∀ j' ∈ (jobsGET exDB 5).1, j'.id ≠ 21) ∧
    ((21, JobStatus.Closed) ∈
      (employerJobsGET exDB (some { userId := 2, role := Role.employer }) 5).2.1) ∧
    (∃ j' ∈ (employerJobsGET exDB
        (some { userId := 2, role := Role.employer }) 5).2.2.jobs,
      j'.id = 21 ∧ j'.status = JobStatus.Closed) ∧
    jobGET exDB 21 = (200, some JobStatus.Active, exDB) :=
  c4_deadline_close_on_list_reads_only exDB 5 exJobExpired
    (by decide) (by decide) (by decide) (by decide)

/-- C2: when the owning employer deletes a job, the job document is gone,
no application referencing it survives in the `applications` collection,
and no seeker who had an application for it retains an `appliedJobs` entry
referencing it. -/
theorem c2_job_delete_cascades (db : DB) (eid jid : OId) (job : Job)
    (hfind : db.jobs.find? (fun j => j.id = jid) = some job)
    (hown : job.employerId = eid) :
    (jobDELETE db (some { userId := eid, role := Role.employer }) jid).1 = 200 ∧
    (∀ j ∈ (jobDELETE db (some { userId := eid, role := Role.employer }) jid).2.jobs,
      j.id ≠ jid) ∧
    (∀ ap ∈ (jobDELETE db (some { userId := eid, role := Role.employer })
        jid).2.applications, ap.jobId ≠ jid) ∧
    (∀ s ∈ (jobDELETE db (some { userId := eid, role := Role.employer })
        jid).2.jobSeekers,
      (∃ ap ∈ db.applications, ap.jobId = jid ∧ ap.jobSeekerId = s.id) →
      ∀ aj ∈ s.appliedJobs, aj.jobId ≠ jid) := by
  have hred : jobDELETE db (some { userId := eid, role := Role.employer }) jid =
      (200,
       { db with
          jobSeekers := dropMirrorByJobId
            ((db.applications.filter (fun ap => ap.jobId = jid)).map
              Application.jobSeekerId) jid db.jobSeekers,
          applications := db.applications.filter (fun ap => ap.jobId ≠ jid),
          jobs := db.jobs.filter (fun j => j.id ≠ jid) }) := by
    simp [jobDELETE, hfind, hown]
  rw [hred]
  refine ⟨rfl, ?_, ?_, ?_⟩
  · intro j hj
    have := (List.mem_filter.mp hj).2
    exact of_decide_eq_true this
  · intro ap hap
    have := (List.mem_filter.mp hap).2
    exact of_decide_eq_true this
  · intro s hs haff
    obtain ⟨s0, hs0, rfl⟩ := List.mem_map.mp hs
    obtain ⟨ap, hapmem, hapjid, hapsid⟩ := haff
    -- the mapped seeker keeps s0's id in both branches, so ap names s0
    have hsid : ap.jobSeekerId = s0.id := by
      rw [hapsid]; split <;> rfl
    have hcontains : ((db.applications.filter (fun x => x.jobId = jid)).map
        Application.jobSeekerId).contains s0.id = true := by
      have hapf : ap ∈ db.applications.filter (fun x => x.jobId = jid) :=
        List.mem_filter.mpr ⟨hapmem, by simp [hapjid]⟩
      have : s0.id ∈ (db.applications.filter (fun x => x.jobId = jid)).map
          Application.jobSeekerId :=
        List.mem_map.mpr ⟨ap, hapf, hsid⟩
      simpa using this
    intro aj haj
    rw [hcontains] at haj
    simp only [if_true, List.mem_filter] at haj
    exact of_decide_eq_true haj.2

/-- Witness for C2: employer 2 deletes job 20, cascading over application 50
and seeker 1's mirror entry. -/
theorem c2_witness :
    (jobDELETE exDB (some { userId := 2, role := Role.employer }) 20).1 = 200 ∧
    (∀ j ∈ (jobDELETE exDB (some { userId := 2, role := Role.employer }) 20).2.jobs,
      j.id ≠ 20) ∧
    (∀ ap ∈ (jobDELETE exDB (some { userId := 2, role := Role.employer })
        20).2.applications, ap.jobId ≠ 20) ∧
    (∀ s ∈ (jobDELETE exDB (some { userId := 2, role := Role.employer })
        20).2.jobSeekers,
      (∃ ap ∈ exDB.applications, ap.jobId = 20 ∧ ap.jobSeekerId = s.id) →
      ∀ aj ∈ s.appliedJobs, aj.jobId ≠ 20) :=
  c2_job_delete_cascades exDB 2 20 exJob (by decide) (by decide)

/-- C9 counterexample: the claim "every application's rating always lies in
[0, 5], the stored rating being left unchanged for a rating outside the
range" is false — a PATCH whose `rating` field is JSON null passes the
handler's check (in JavaScript `null !== undefined`, `null >= 0` and
`null <= 5` all hold) and `$set` stores null without validators:
application 50's rating, previously 0, becomes null, which neither lies in
[0, 5] nor is left unchanged. -/
theorem c9_counterexample :
    exApp.rating = some 0 ∧
    (applicationPATCH exDB (some { userId := 2, role := Role.employer }) 50
        none RatingField.null).1 = 200 ∧
    (∃ ap' ∈ (applicationPATCH exDB
        (some { userId := 2, role := Role.employer }) 50
        none RatingField.null).2.applications,
      ap'.id = 50 ∧ ap'.rating = none ∧ ¬ ratingOk ap'.rating) := by
  decide

/-- C9 amended: an application is created with rating 0; a PATCH by the
owning employer applies a numeric rating exactly when it lies in [0, 5],
and an out-of-range numeric rating leaves every stored rating unchanged;
a PATCH whose rating field is JSON null, however, passes the handler's
check and stores null on the matching application; apply, and every PATCH
whose rating field is not null, preserve the in-range invariant. -/
theorem c9_rating_in_range_unless_null (db : DB) (hinv : ratingInv db)
    (authA : Option Auth) (jidA : Option OId) (fidA : OId) (nowA : Int)
    (authP : Option Auth) (appIdP : OId) (rsP : Option String)
    (rrP : RatingField) (hrfP : rrP ≠ RatingField.null)
    (uid jid fid : OId) (now : Int) (job : Job) (seeker : JobSeeker)
    (hjob : db.jobs.find? (fun j => j.id = jid) = some job)
    (hact : job.status = JobStatus.Active)
    (hdl : deadlinePassed job.deadline now = false)
    (hnodup : db.applications.any
      (fun x => x.jobId = jid && x.jobSeekerId = uid) = false)
    (hseeker : db.jobSeekers.find? (fun s => s.id = uid) = some seeker)
    (hfn : seeker.firstName ≠ "") (hln : seeker.lastName ≠ "")
    (hnomirror : seeker.appliedJobs.any (fun aj => aj.jobId = jid) = false)
    (eid appId2 : OId) (rs2 : Option String) (r : Int) (hr5 : 0 ≤ r ∧ r ≤ 5)
    (ap2 : Application) (job2 : Job)
    (hap2 : db.applications.find? (fun x => x.id = appId2) = some ap2)
    (hjob2 : db.jobs.find? (fun j => j.id = ap2.jobId) = some job2)
    (hown2 : job2.employerId = eid)
    (auth3 : Option Auth) (appId3 : OId) (rs3 : Option String)
    (rbad : Int) (hrbad : ¬(0 ≤ rbad ∧ rbad ≤ 5))
    (eidN appIdN : OId) (rsN : Option String) (apN : Application) (jobN : Job)
    (hapN : db.applications.find? (fun x => x.id = appIdN) = some apN)
    (hjobN : db.jobs.find? (fun j => j.id = apN.jobId) = some jobN)
    (hownN : jobN.employerId = eidN) :
    ratingInv (applicationsPOST db authA jidA fidA nowA).2 ∧
    ratingInv (applicationPATCH db authP appIdP rsP rrP).2 ∧
    (∃ ap' ∈ (applicationsPOST db (some { userId := uid, role := Role.jobSeeker })
        (some jid) fid now).2.applications,
      ap'.id = fid ∧ ap'.rating = some 0 ∧ ap'.status = AppStatus.Pending) ∧
    (∀ ap' ∈ (applicationPATCH db (some { userId := eid, role := Role.employer })
        appId2 rs2 (RatingField.num r)).2.applications,
      ap'.id = appId2 → ap'.rating = some r) ∧
    ((applicationPATCH db auth3 appId3 rs3
        (RatingField.num rbad)).2.applications).map
        Application.rating = db.applications.map Application.rating ∧
    (∀ ap' ∈ (applicationPATCH db (some { userId := eidN, role := Role.employer })
        appIdN rsN RatingField.null).2.applications,
      ap'.id = appIdN → ap'.rating = none) := by
  refine ⟨ratingInv_applicationsPOST db authA jidA fidA nowA hinv,
          ratingInv_applicationPATCH db authP appIdP rsP rrP hrfP hinv,
          ?_, ?_,
          map_rating_applicationPATCH_invalid db auth3 appId3 rs3 rbad hrbad,
          ?_⟩
  · rw [applicationsPOST_success_eq db uid jid fid now job seeker hjob hact hdl
      hnodup hseeker hfn hln hnomirror]
    exact ⟨_, List.mem_append_right _ (List.mem_singleton_self _), rfl, rfl, rfl⟩
  · rw [applicationPATCH_success_eq db eid appId2 rs2 (RatingField.num r)
      ap2 job2 hap2 hjob2 hown2]
    have hsome : patchRatingOf (RatingField.num r) = some (some r) :=
      (if_pos hr5 : (if 0 ≤ r ∧ r ≤ 5 then some (some r) else none :
        Option (Option Int)) = some (some r))
    intro ap' h hid
    rw [hsome] at h
    exact setAppFields_rating_set appId2 _ (some r) db.applications ap' h hid
  · rw [applicationPATCH_success_eq db eidN appIdN rsN RatingField.null
      apN jobN hapN hjobN hownN]
    intro ap' h hid
    exact setAppFields_rating_set appIdN _ none db.applications ap' h hid

/-- Witness for C9's amended theorem at `exDB`: seeker 3 applies to job 20
(rating 0), employer 2 rates application 50 with 4 (stored), a PATCH with
rating 9 changes nothing, and a PATCH with a null rating stores null. -/
theorem c9_witness :
    ratingInv (applicationsPOST exDB none none 99 5).2 ∧
    ratingInv (applicationPATCH exDB none 50 none RatingField.undef).2 ∧
    (∃ ap' ∈ (applicationsPOST exDB (some { userId := 3, role := Role.jobSeeker })
        (some 20) 99 5).2.applications,
      ap'.id = 99 ∧ ap'.rating = some 0 ∧ ap'.status = AppStatus.Pending) ∧
    (∀ ap' ∈ (applicationPATCH exDB (some { userId := 2, role := Role.employer })
        50 none (RatingField.num 4)).2.applications,
      ap'.id = 50 → ap'.rating = some 4) ∧
    ((applicationPATCH exDB (some { userId := 2, role := Role.employer }) 50
        none (RatingField.num 9)).2.applications).map Application.rating =
      exDB.applications.map Application.rating ∧
    (∀ ap' ∈ (applicationPATCH exDB (some { userId := 2, role := Role.employer })
        50 none RatingField.null).2.applications,
      ap'.id = 50 → ap'.rating = none) :=
  c9_rating_in_range_unless_null exDB (by decide)
    none none 99 5
    none 50 none RatingField.undef (by decide)
    3 20 99 5 exJob exSeeker2
    (by decide) (by decide) (by decide) (by decide) (by decide) (by decide)
    (by decide) (by decide)
    2 50 none 4 (by decide) exApp exJob
    (by decide) (by decide) (by decide)
    (some { userId := 2, role := Role.employer }) 50 none 9 (by decide)
    2 50 none exApp exJob
    (by decide) (by decide) (by decide)

/-- C3: a second apply by the same seeker for the same job — whether the
duplicate lives in the applications collection or in the seeker's
`appliedJobs` mirror — is rejected without creating an application, and
every operation (apply, PATCH, seeker delete, job delete) preserves the
at-most-one-application-per-(job, seeker) invariant. -/
theorem c3_at_most_one_application_per_pair (db : DB)
    (hnd : (db.jobSeekers.map JobSeeker.id).Nodup)
    (hp : pairUnique db.applications)
    (uid jid fid : OId) (now : Int)
    (hdup : (∃ ap ∈ db.applications, ap.jobId = jid ∧ ap.jobSeekerId = uid) ∨
            (∃ s ∈ db.jobSeekers, s.id = uid ∧
              ∃ aj ∈ s.appliedJobs, aj.jobId = jid))
    (authA : Option Auth) (jidA : Option OId) (fidA : OId) (nowA : Int)
    (authP : Option Auth) (appIdP : OId) (rsP : Option String) (rrP : RatingField)
    (authD : Option Auth) (appIdD : Option OId)
    (authJ : Option Auth) (jidJ : OId) :
    ((applicationsPOST db (some { userId := uid, role := Role.jobSeeker })
        (some jid) fid now).1 ≠ 201 ∧
     (applicationsPOST db (some { userId := uid, role := Role.jobSeeker })
        (some jid) fid now).2.applications = db.applications) ∧
    pairUnique (applicationsPOST db authA jidA fidA nowA).2.applications ∧
    pairUnique (applicationPATCH db authP appIdP rsP rrP).2.applications ∧
    pairUnique (myApplicationDELETE db authD appIdD).2.applications ∧
    pairUnique (jobDELETE db authJ jidJ).2.applications := by
  refine ⟨applicationsPOST_duplicate_rejected db hnd uid jid fid now hdup,
          pairUnique_applicationsPOST db authA jidA fidA nowA hp, ?_, ?_, ?_⟩
  · rcases applicationPATCH_apps_cases db authP appIdP rsP rrP with h | h <;>
      rw [h]
    · exact hp
    · exact pairUnique_setAppFields _ _ _ _ hp
  · rcases myApplicationDELETE_apps_cases db authD appIdD with h | ⟨x, h⟩ <;>
      rw [h]
    · exact hp
    · exact List.Pairwise.sublist (List.filter_sublist _) hp
  · rcases jobDELETE_apps_cases db authJ jidJ with h | h <;> rw [h]
    · exact hp
    · exact List.Pairwise.sublist (List.filter_sublist _) hp

/-- Witness for C3: seeker 1 re-applies to job 20 (application 50 already
exists) and is rejected; uniqueness is preserved across the operations. -/
theorem c3_witness :
    ((applicationsPOST exDB (some { userId := 1, role := Role.jobSeeker })
        (some 20) 99 5).1 ≠ 201 ∧
     (applicationsPOST exDB (some { userId := 1, role := Role.jobSeeker })
        (some 20) 99 5).2.applications = exDB.applications) ∧
    pairUnique (applicationsPOST exDB (some { userId := 3, role := Role.jobSeeker })
        (some 20) 99 5).2.applications ∧
    pairUnique (applicationPATCH exDB (some { userId := 2, role := Role.employer })
        50 (some "Reviewed") RatingField.undef).2.applications ∧
    pairUnique (myApplicationDELETE exDB (some { userId := 1, role := Role.jobSeeker })
        (some 50)).2.applications ∧
    pairUnique (jobDELETE exDB (some { userId := 2, role := Role.employer })
        20).2.applications :=
  c3_at_most_one_application_per_pair exDB (by decide) (by decide)
    1 20 99 5 (Or.inl (by decide))
    (some { userId := 3, role := Role.jobSeeker }) (some 20) 99 5
    (some { userId := 2, role := Role.employer }) 50 (some "Reviewed")
    RatingField.undef
    (some { userId := 1, role := Role.jobSeeker }) (some 50)
    (some { userId := 2, role := Role.employer }) 20

/-- C1: the dual-write invariant — every application fact is stored in
exactly two places, the shared `applications` collection and a single
matching entry (same `applicationId`, `jobId`, `status`, `rating`) in the
owning seeker's `appliedJobs` mirror — is preserved by every outcome of the
three operations: apply (create), employer status-or-rating PATCH, and
job-seeker delete.  `wf` assumes Mongo `_id` uniqueness; the freshness of
the id Mongo generates for a new application is a hypothesis. -/
theorem c1_dual_write_consistency (db : DB) (hwf : wf db)
    (hc : consistent db)
    (authA : Option Auth) (jidA : Option OId) (fidA : OId) (nowA : Int)
    (hfresh : fidA ∉ db.applications.map Application.id)
    (authP : Option Auth) (appIdP : OId) (rsP : Option String)
    (rrP : RatingField) (authD : Option Auth) (appIdD : Option OId) :
    consistent (applicationsPOST db authA jidA fidA nowA).2 ∧
    consistent (applicationPATCH db authP appIdP rsP rrP).2 ∧
    consistent (myApplicationDELETE db authD appIdD).2 :=
  ⟨consistent_applicationsPOST db hwf.2.2.1 hc authA jidA fidA nowA hfresh,
   consistent_applicationPATCH db hwf.2.1 hwf.2.2.1 hc authP appIdP rsP rrP,
   consistent_myApplicationDELETE db hwf.2.1 hc authD appIdD⟩

/-- Witness for C1 at `exDB`: seeker 3 applies to job 20 (fresh id 99),
employer 2 PATCHes application 50 to Selected with rating 3, and seeker 1
deletes application 50 — each result satisfies the dual-write invariant. -/
theorem c1_witness :
    consistent (applicationsPOST exDB
      (some { userId := 3, role := Role.jobSeeker }) (some 20) 99 5).2 ∧
    consistent (applicationPATCH exDB
      (some { userId := 2, role := Role.employer }) 50
      (some "Selected") (RatingField.num 3)).2 ∧
    consistent (myApplicationDELETE exDB
      (some { userId := 1, role := Role.jobSeeker }) (some 50)).2 :=
  c1_dual_write_consistency exDB (by decide) (by decide)
    (some { userId := 3, role := Role.jobSeeker }) (some 20) 99 5 (by decide)
    (some { userId := 2, role := Role.employer }) 50 (some "Selected")
    (RatingField.num 3)
    (some { userId := 1, role := Role.jobSeeker }) (some 50)

/-- Witness for C6: registering `ALICE` (employer role) collides with the
existing seeker `alice`. -/
theorem c6_witness :
    registerPOST exDB
      { username := "ALICE", password := "secret7", firstName := "X",
        lastName := "Y", role := "employer", email := "x@y.zz" }
      99 (fun p => p) = (409, none, exDB) :=
  c6_register_duplicate_username_409 exDB
    { username := "ALICE", password := "secret7", firstName := "X",
      lastName := "Y", role := "employer", email := "x@y.zz" }
    99 (fun p => p) (by decide) (by decide) (by decide) (by decide) (by decide)
    (by decide) (by decide) (Or.inr (by decide)) (by decide)

end TopGrab
